import Mathlib

/-!
Shallow embedding of `controllers/migrationController.js`: the bill/receipt
reconciliation and repair engine.  Bills and receipts are modelled as records
over `Int` amounts; the Mongo collections become `List`s inside a `DB`
snapshot; each controller is a pure function from a snapshot to a
result/updated-snapshot pair.  The external uuid-based receipt-number
generator (`generateReceiptNumber`) and Mongo `_id` minting are passed in as
parameters `gen`/`fid` indexed by the number of receipts created so far.
-/

namespace BillingMigration

/-- Payment subdocument of a bill (`bill.payment` in the source): the `paid`
amount, the method `type`, and optional `cardNumber` / `utrNumber`. -/
structure Payment where
  paid : Int
  type : String
  cardNumber : Option String
  utrNumber : Option String
deriving DecidableEq, Repr

/-- Bill record (`Billing` model).  `id` models the Mongo `_id`. -/
structure Bill where
  id : Nat
  billNumber : String
  payment : Payment
  status : String
  date : Nat
  createdBy : String
deriving DecidableEq, Repr

/-- Payment-method snapshot stored on a receipt; built in
`createMissingReceipts` as `{ type, cardNumber: bill.payment.cardNumber || "",
utrNumber: bill.payment.utrNumber || "" }`. -/
structure PaymentMethod where
  type : String
  cardNumber : String
  utrNumber : String
deriving DecidableEq, Repr

/-- Receipt record (`Receipt` model).  `id` models the Mongo `_id`;
`billingId` is the secondary reference to the owning bill's `_id`. -/
structure Receipt where
  id : Nat
  receiptNumber : String
  billNumber : String
  billingId : Nat
  type : String
  amount : Int
  paymentMethod : PaymentMethod
  newStatus : String
  remarks : String
  createdBy : String
  date : Nat
deriving DecidableEq, Repr

/-- Snapshot of the two ledgers read by every controller. -/
structure DB where
  bills : List Bill
  receipts : List Receipt
deriving DecidableEq, Repr

/-- Receipt payload built inside the `createMissingReceipts` loop for bill
`b`, the `k`-th receipt created during the pass (lines 39-54 of the
controller).  `gen k` models the `generateReceiptNumber()` call and `fid k`
the fresh Mongo `_id` of the saved document. -/
def mkMigrationReceipt (gen : Nat → String) (fid : Nat → Nat) (k : Nat) (b : Bill) : Receipt :=
  { id := fid k
    receiptNumber := gen k
    billNumber := b.billNumber
    billingId := b.id
    type := "creation"
    amount := b.payment.paid
    paymentMethod :=
      { type := b.payment.type
        cardNumber := b.payment.cardNumber.getD ""
        utrNumber := b.payment.utrNumber.getD "" }
    newStatus := b.status
    remarks := "Receipt created during migration"
    createdBy := b.createdBy
    date := b.date }

/-- Bills with no receipt referencing their `billNumber`: the source builds
`existingBillNumbers = new Set(existingReceipts.map(r => r.billNumber))` and
keeps the bills whose number is not in the set (lines 23-30). -/
def billsWithoutReceipts (bills : List Bill) (receipts : List Receipt) : List Bill :=
  bills.filter (fun b => !(receipts.any (fun r => r.billNumber == b.billNumber)))

/-- The `for (const bill of billsWithoutReceipts)` loop (lines 36-60): a
receipt is created only when `bill.payment.paid > 0`; the counter `k` (number
of receipts created so far) advances only on creation, matching the fact
that `generateReceiptNumber()` is called once per created receipt. -/
def createLoop (gen : Nat → String) (fid : Nat → Nat) : Nat → List Bill → List Receipt
  | _, [] => []
  | k, b :: bs =>
    if b.payment.paid > 0 then
      mkMigrationReceipt gen fid k b :: createLoop gen fid (k + 1) bs
    else
      createLoop gen fid k bs

/-- All receipts created by one `createMissingReceipts` pass over `db`. -/
def createdReceipts (gen : Nat → String) (fid : Nat → Nat) (db : DB) : List Receipt :=
  createLoop gen fid 0 (billsWithoutReceipts db.bills db.receipts)

/-- Success/failure payload returned by `createMissingReceipts`
(`res.status(...).json({...})`). -/
structure CreateResult where
  success : Bool
  message : String
  error : Option String
  createdCount : Nat
  totalBillsChecked : Nat
deriving DecidableEq, Repr

/-- `createMissingReceipts` (lines 13-81), success path: reads both ledgers,
creates one `creation` receipt per paid bill that has none, commits, and
reports `createdCount` and `totalBillsChecked`. -/
def createMissingReceipts (gen : Nat → String) (fid : Nat → Nat) (db : DB) :
    CreateResult × DB :=
  let created := createdReceipts gen fid db
  ({ success := true
     message := "Successfully created " ++ toString created.length ++ " missing receipts"
     error := none
     createdCount := created.length
     totalBillsChecked := db.bills.length },
   { db with receipts := db.receipts ++ created })

/-- `Billing.findById(receipt.billingId)` (line 102): point lookup of a bill
by its internal `_id`. -/
def billFindById (bills : List Bill) (i : Nat) : Option Bill :=
  bills.find? (fun b => b.id == i)

/-- `Receipt.find({ amount: { $lte: 0 } })` (lines 90-92). -/
def zeroAmountReceipts (receipts : List Receipt) : List Receipt :=
  receipts.filter (fun r => decide (r.amount ≤ 0))

/-- Entry pushed onto `fixedReceipts` by `fixZeroAmountReceipts`
(lines 137-143). -/
structure FixedReceipt where
  receiptNumber : String
  billNumber : String
  oldAmount : Int
  newAmount : Int
  type : String
deriving DecidableEq, Repr

/-- Body of the `for (const receipt of zeroAmountReceipts)` loop
(lines 100-149), returning the `fixedReceipts` log together with the list of
`(receipt._id, newAmount)` updates issued via `findByIdAndUpdate`.  A
missing billing record and a `payment`-type receipt both `continue`; for
`creation`/`cancellation` the correct amount is `billing.payment.paid`, and
the update fires only when `correctAmount > 0 && correctAmount !==
receipt.amount`. -/
def fixZeroPass (bills : List Bill) : List Receipt → List FixedReceipt × List (Nat × Int)
  | [] => ([], [])
  | r :: rs =>
    match billFindById bills r.billingId with
    | none => fixZeroPass bills rs
    | some billing =>
      if r.type = "payment" then
        fixZeroPass bills rs
      else
        let correctAmount : Int :=
          if r.type = "creation" then billing.payment.paid
          else if r.type = "cancellation" then billing.payment.paid
          else 0
        let rest := fixZeroPass bills rs
        if correctAmount > 0 ∧ correctAmount ≠ r.amount then
          ({ receiptNumber := r.receiptNumber
             billNumber := r.billNumber
             oldAmount := r.amount
             newAmount := correctAmount
             type := r.type } :: rest.1,
           (r.id, correctAmount) :: rest.2)
        else rest

/-- Decision the `fixZeroAmountReceipts` loop body takes for a single
receipt: `some c` when the loop issues `findByIdAndUpdate(receipt._id,
{ amount: c })`, `none` when it skips the receipt (no billing record,
`payment` type, or failed `correctAmount > 0 && correctAmount !== amount`
guard). -/
def zeroFixDecision (bills : List Bill) (r : Receipt) : Option Int :=
  match billFindById bills r.billingId with
  | none => none
  | some billing =>
    if r.type = "payment" then none
    else
      let correctAmount : Int :=
        if r.type = "creation" then billing.payment.paid
        else if r.type = "cancellation" then billing.payment.paid
        else 0
      if correctAmount > 0 ∧ correctAmount ≠ r.amount then some correctAmount else none

/-- `Receipt.findByIdAndUpdate(id, { amount: a })`: update in place of the
single document whose `_id` matches, touching only `amount`. -/
def applyUpdate (rs : List Receipt) (i : Nat) (a : Int) : List Receipt :=
  rs.map (fun r => if r.id = i then { r with amount := a } else r)

/-- Sequential application of the buffered `findByIdAndUpdate` calls of one
transaction, in program order. -/
def applyUpdates (rs : List Receipt) : List (Nat × Int) → List Receipt
  | [] => rs
  | u :: us => applyUpdates (applyUpdate rs u.1 u.2) us

/-- Success/failure payload returned by `fixZeroAmountReceipts`. -/
structure FixResult where
  success : Bool
  message : String
  error : Option String
  fixedReceipts : List FixedReceipt
  totalChecked : Nat
deriving DecidableEq, Repr

/-- `fixZeroAmountReceipts` (lines 84-170), success path: queries the
receipts with `amount <= 0`, runs the correction loop, commits the updates
and reports the fixed list plus `totalChecked`. -/
def fixZeroAmountReceipts (db : DB) : FixResult × DB :=
  let zeros := zeroAmountReceipts db.receipts
  let pass := fixZeroPass db.bills zeros
  ({ success := true
     message := "Successfully fixed " ++ toString pass.1.length ++ " receipts"
     error := none
     fixedReceipts := pass.1
     totalChecked := zeros.length },
   { db with receipts := applyUpdates db.receipts pass.2 })

/-- Entry pushed onto `fixedReceipts` by `fixSpecificBillReceipt`
(lines 211-215). -/
structure SpecFixed where
  receiptNumber : String
  oldAmount : Int
  newAmount : Int
deriving DecidableEq, Repr

/-- Correct amount computed by the `fixSpecificBillReceipt` loop
(lines 196-202): `billing.payment.paid` for `creation` and `cancellation`
receipts, and the initial `0` otherwise. -/
def correctAmountFor (billing : Bill) (r : Receipt) : Int :=
  if r.type = "creation" then billing.payment.paid
  else if r.type = "cancellation" then billing.payment.paid
  else 0

/-- Decision of the `fixSpecificBillReceipt` loop body for one receipt:
`some c` exactly when the `correctAmount > 0 && correctAmount !==
receipt.amount` guard passes. -/
def specFixDecision (billing : Bill) (r : Receipt) : Option Int :=
  if correctAmountFor billing r > 0 ∧ correctAmountFor billing r ≠ r.amount then
    some (correctAmountFor billing r)
  else none

/-- Body of the `for (const receipt of receipts)` loop of
`fixSpecificBillReceipt` (lines 195-217). -/
def fixSpecificPass (billing : Bill) : List Receipt → List SpecFixed × List (Nat × Int)
  | [] => ([], [])
  | r :: rs =>
    let correctAmount := correctAmountFor billing r
    let rest := fixSpecificPass billing rs
    if correctAmount > 0 ∧ correctAmount ≠ r.amount then
      ({ receiptNumber := r.receiptNumber
         oldAmount := r.amount
         newAmount := correctAmount } :: rest.1,
       (r.id, correctAmount) :: rest.2)
    else rest

/-- Success/failure payload returned by `fixSpecificBillReceipt`; the 404
path carries `success := false` with `error := none`. -/
structure SpecificFixResult where
  success : Bool
  message : String
  error : Option String
  billNumber : String
  fixedReceipts : List SpecFixed
deriving DecidableEq, Repr

/-- `fixSpecificBillReceipt` (lines 173-237): looks up the bill by
`billNumber` (404 and abort when absent), then applies the
`creation`/`cancellation` correction rule to every receipt sharing that
`billNumber`. -/
def fixSpecificBillReceipt (bn : String) (db : DB) : SpecificFixResult × DB :=
  match db.bills.find? (fun b => b.billNumber == bn) with
  | none =>
    ({ success := false
       message := "Bill " ++ bn ++ " not found"
       error := none
       billNumber := bn
       fixedReceipts := [] }, db)
  | some billing =>
    let receipts := db.receipts.filter (fun r => r.billNumber == bn)
    let pass := fixSpecificPass billing receipts
    ({ success := true
       message := "Fixed " ++ toString pass.1.length ++ " receipts for bill " ++ bn
       error := none
       billNumber := bn
       fixedReceipts := pass.1 },
     { db with receipts := applyUpdates db.receipts pass.2 })

/-- Entry of `report.billsWithoutReceipts` (lines 272-277). -/
structure MissingBillEntry where
  billNumber : String
  paidAmount : Int
  status : String
  date : Nat
deriving DecidableEq, Repr

/-- Entry of `report.zeroAmountReceipts` (lines 283-289). -/
structure ZeroAmountEntry where
  receiptNumber : String
  billNumber : String
  receiptAmount : Int
  expectedAmount : Int
  type : String
deriving DecidableEq, Repr

/-- Entry of `report.duplicateReceipts` (lines 296-301). -/
structure DuplicateEntry where
  billNumber : String
  duplicateType : String
  count : Nat
  receipts : List String
deriving DecidableEq, Repr

/-- Entry of `report.orphanedReceipts` (lines 309-314). -/
structure OrphanEntry where
  receiptNumber : String
  billNumber : String
  amount : Int
  type : String
deriving DecidableEq, Repr

/-- The `report` object assembled by `getReceiptAuditReport`. -/
structure AuditReport where
  totalBills : Nat
  totalReceipts : Nat
  billsWithoutReceipts : List MissingBillEntry
  zeroAmountReceipts : List ZeroAmountEntry
  duplicateReceipts : List DuplicateEntry
  orphanedReceipts : List OrphanEntry
deriving DecidableEq, Repr

/-- `receiptsByBillNumber.get(bill.billNumber) || []` (lines 249-255, 268):
the receipts of the snapshot sharing one bill number, in snapshot order. -/
def receiptsFor (receipts : List Receipt) (bn : String) : List Receipt :=
  receipts.filter (fun r => r.billNumber == bn)

/-- `getReceiptAuditReport` (lines 240-331): one pass over the bills fills
the missing / zero-amount / duplicate sections (a zero-amount entry also
requires `bill.payment.paid > 0`), and a pass over the receipts fills the
orphan section. -/
def getReceiptAuditReport (db : DB) : AuditReport :=
  { totalBills := db.bills.length
    totalReceipts := db.receipts.length
    billsWithoutReceipts :=
      (db.bills.filter (fun b =>
          decide ((receiptsFor db.receipts b.billNumber).length = 0) &&
          decide (b.payment.paid > 0))).map
        (fun b =>
          { billNumber := b.billNumber
            paidAmount := b.payment.paid
            status := b.status
            date := b.date })
    zeroAmountReceipts :=
      db.bills.flatMap (fun b =>
        ((receiptsFor db.receipts b.billNumber).filter
            (fun r => decide (r.amount ≤ 0) && decide (b.payment.paid > 0))).map
          (fun r =>
            { receiptNumber := r.receiptNumber
              billNumber := b.billNumber
              receiptAmount := r.amount
              expectedAmount := b.payment.paid
              type := r.type }))
    duplicateReceipts :=
      (db.bills.filter (fun b =>
          decide (1 < ((receiptsFor db.receipts b.billNumber).filter
            (fun r => r.type == "creation")).length))).map
        (fun b =>
          { billNumber := b.billNumber
            duplicateType := "creation"
            count := ((receiptsFor db.receipts b.billNumber).filter
              (fun r => r.type == "creation")).length
            receipts := ((receiptsFor db.receipts b.billNumber).filter
              (fun r => r.type == "creation")).map Receipt.receiptNumber })
    orphanedReceipts :=
      (db.receipts.filter (fun r =>
          !(db.bills.any (fun b => b.billNumber == r.billNumber)))).map
        (fun r =>
          { receiptNumber := r.receiptNumber
            billNumber := r.billNumber
            amount := r.amount
            type := r.type }) }

/-!
Transactional failure model.  Every storage call of a controller runs inside
one mongoose session: writes are buffered in the transaction and become
visible only at `commitTransaction`; the `catch` block calls
`abortTransaction`, discarding the buffer, and answers with
`{ success: false, message, error: error.message }`.  The oracle
`fails : Nat → Option String` gives the outcome of the `k`-th storage call
of the invocation (in program order): `some m` means the call throws an
error whose message is `m`. -/

/-- Failure payload of `createMissingReceipts` (lines 73-77). -/
def createFailure (m : String) : CreateResult :=
  { success := false
    message := "Error creating missing receipts"
    error := some m
    createdCount := 0
    totalBillsChecked := 0 }

/-- The creation loop under the failure oracle: storage call `op` is the
`receipt.save({ session })` of the next created receipt.  An error aborts
the whole loop, mirroring the exception escaping the `for` loop. -/
def saveLoopF (gen : Nat → String) (fid : Nat → Nat) (fails : Nat → Option String) :
    Nat → Nat → List Bill → Except String (List Receipt)
  | _, _, [] => Except.ok []
  | op, k, b :: bs =>
    if b.payment.paid > 0 then
      match fails op with
      | some m => Except.error m
      | none =>
        match saveLoopF gen fid fails (op + 1) (k + 1) bs with
        | Except.ok rest => Except.ok (mkMigrationReceipt gen fid k b :: rest)
        | Except.error m => Except.error m
    else
      saveLoopF gen fid fails op k bs

/-- `createMissingReceipts` under the failure oracle: call 0 is
`Billing.find({})`, call 1 is `Receipt.find({})`, calls 2,3,… are the
`receipt.save` writes.  Any error reaches the `catch` block: the
transaction is aborted (the committed snapshot `db` is returned unchanged)
and the failure payload carries the cause message. -/
def createMissingReceiptsF (gen : Nat → String) (fid : Nat → Nat)
    (fails : Nat → Option String) (db : DB) : CreateResult × DB :=
  match fails 0 with
  | some m => (createFailure m, db)
  | none =>
    match fails 1 with
    | some m => (createFailure m, db)
    | none =>
      match saveLoopF gen fid fails 2 0 (billsWithoutReceipts db.bills db.receipts) with
      | Except.error m => (createFailure m, db)
      | Except.ok created =>
        ({ success := true
           message := "Successfully created " ++ toString created.length ++ " missing receipts"
           error := none
           createdCount := created.length
           totalBillsChecked := db.bills.length },
         { db with receipts := db.receipts ++ created })

/-- Failure payload of `fixZeroAmountReceipts` (lines 162-166). -/
def fixZeroFailure (m : String) : FixResult :=
  { success := false
    message := "Error fixing zero amount receipts"
    error := some m
    fixedReceipts := []
    totalChecked := 0 }

/-- The zero-amount correction loop under the failure oracle: per receipt,
one `Billing.findById` call, plus one `Receipt.findByIdAndUpdate` call when
the correction guard passes. -/
def fixZeroLoopF (bills : List Bill) (fails : Nat → Option String) :
    Nat → List Receipt → Except String (List FixedReceipt × List (Nat × Int))
  | _, [] => Except.ok ([], [])
  | op, r :: rs =>
    match fails op with
    | some m => Except.error m
    | none =>
      match billFindById bills r.billingId with
      | none => fixZeroLoopF bills fails (op + 1) rs
      | some billing =>
        if r.type = "payment" then
          fixZeroLoopF bills fails (op + 1) rs
        else
          let correctAmount : Int :=
            if r.type = "creation" then billing.payment.paid
            else if r.type = "cancellation" then billing.payment.paid
            else 0
          if correctAmount > 0 ∧ correctAmount ≠ r.amount then
            match fails (op + 1) with
            | some m => Except.error m
            | none =>
              match fixZeroLoopF bills fails (op + 2) rs with
              | Except.ok rest =>
                Except.ok
                  ({ receiptNumber := r.receiptNumber
                     billNumber := r.billNumber
                     oldAmount := r.amount
                     newAmount := correctAmount
                     type := r.type } :: rest.1,
                   (r.id, correctAmount) :: rest.2)
              | Except.error m => Except.error m
          else
            fixZeroLoopF bills fails (op + 1) rs

/-- `fixZeroAmountReceipts` under the failure oracle: call 0 is the
`Receipt.find({ amount: { $lte: 0 } })` query; errors abort the transaction
and report the cause. -/
def fixZeroAmountReceiptsF (fails : Nat → Option String) (db : DB) : FixResult × DB :=
  match fails 0 with
  | some m => (fixZeroFailure m, db)
  | none =>
    let zeros := zeroAmountReceipts db.receipts
    match fixZeroLoopF db.bills fails 1 zeros with
    | Except.error m => (fixZeroFailure m, db)
    | Except.ok pass =>
      ({ success := true
         message := "Successfully fixed " ++ toString pass.1.length ++ " receipts"
         error := none
         fixedReceipts := pass.1
         totalChecked := zeros.length },
       { db with receipts := applyUpdates db.receipts pass.2 })

/-- Failure payload of `fixSpecificBillReceipt` (lines 229-233). -/
def specFailure (bn : String) (m : String) : SpecificFixResult :=
  { success := false
    message := "Error fixing receipts for bill " ++ bn
    error := some m
    billNumber := bn
    fixedReceipts := [] }

/-- The single-bill correction loop under the failure oracle: one
`findByIdAndUpdate` call per receipt passing the guard. -/
def fixSpecificLoopF (billing : Bill) (fails : Nat → Option String) :
    Nat → List Receipt → Except String (List SpecFixed × List (Nat × Int))
  | _, [] => Except.ok ([], [])
  | op, r :: rs =>
    let correctAmount := correctAmountFor billing r
    if correctAmount > 0 ∧ correctAmount ≠ r.amount then
      match fails op with
      | some m => Except.error m
      | none =>
        match fixSpecificLoopF billing fails (op + 1) rs with
        | Except.ok rest =>
          Except.ok
            ({ receiptNumber := r.receiptNumber
               oldAmount := r.amount
               newAmount := correctAmount } :: rest.1,
             (r.id, correctAmount) :: rest.2)
        | Except.error m => Except.error m
    else
      fixSpecificLoopF billing fails op rs

/-- `fixSpecificBillReceipt` under the failure oracle: call 0 is
`Billing.findOne({ billNumber })`, call 1 is `Receipt.find({ billNumber })`,
later calls are the updates.  The 404 path aborts with `error := none`. -/
def fixSpecificBillReceiptF (bn : String) (fails : Nat → Option String) (db : DB) :
    SpecificFixResult × DB :=
  match fails 0 with
  | some m => (specFailure bn m, db)
  | none =>
    match db.bills.find? (fun b => b.billNumber == bn) with
    | none =>
      ({ success := false
         message := "Bill " ++ bn ++ " not found"
         error := none
         billNumber := bn
         fixedReceipts := [] }, db)
    | some billing =>
      match fails 1 with
      | some m => (specFailure bn m, db)
      | none =>
        match fixSpecificLoopF billing fails 2
            (db.receipts.filter (fun r => r.billNumber == bn)) with
        | Except.error m => (specFailure bn m, db)
        | Except.ok pass =>
          ({ success := true
             message := "Fixed " ++ toString pass.1.length ++ " receipts for bill " ++ bn
             error := none
             billNumber := bn
             fixedReceipts := pass.1 },
           { db with receipts := applyUpdates db.receipts pass.2 })

/-!
Helper lemmas about the update machinery and the loops.
-/

/-- One buffered `findByIdAndUpdate` applied to one document. -/
def updStep (r : Receipt) (u : Nat × Int) : Receipt :=
  if r.id = u.1 then { r with amount := u.2 } else r

/-- All buffered updates applied to one document, in order. -/
def foldUpd (us : List (Nat × Int)) (r : Receipt) : Receipt :=
  us.foldl updStep r

theorem applyUpdates_eq_map (us : List (Nat × Int)) :
    ∀ rs : List Receipt, applyUpdates rs us = rs.map (foldUpd us) := by
  induction us with
  | nil =>
    intro rs
    have hid : foldUpd [] = fun r => r := rfl
    simp [applyUpdates, hid]
  | cons u us ih =>
    intro rs
    have h1 : applyUpdate rs u.1 u.2 = rs.map (fun r => updStep r u) := by
      simp [applyUpdate, updStep]
    calc applyUpdates rs (u :: us)
        = applyUpdates (applyUpdate rs u.1 u.2) us := rfl
      _ = (applyUpdate rs u.1 u.2).map (foldUpd us) := ih _
      _ = (rs.map (fun r => updStep r u)).map (foldUpd us) := by rw [h1]
      _ = rs.map (foldUpd (u :: us)) := by
            rw [List.map_map]; rfl

theorem foldUpd_not_touched (r : Receipt) :
    ∀ us : List (Nat × Int), (∀ u ∈ us, u.1 ≠ r.id) → foldUpd us r = r := by
  intro us
  induction us with
  | nil => intro _; rfl
  | cons u us ih =>
    intro h
    have hu : u.1 ≠ r.id := h u (by simp)
    have hne : ¬ r.id = u.1 := fun hc => hu hc.symm
    have hstep : updStep r u = r := by
      simp [updStep, hne]
    show foldUpd us (updStep r u) = r
    rw [hstep]
    exact ih (fun v hv => h v (by simp [hv]))

theorem foldUpd_shape : ∀ (us : List (Nat × Int)) (r : Receipt),
    ∃ a : Int, foldUpd us r = { r with amount := a } := by
  intro us
  induction us with
  | nil => intro r; exact ⟨r.amount, rfl⟩
  | cons u us ih =>
    intro r
    show ∃ a, foldUpd us (updStep r u) = { r with amount := a }
    by_cases hc : r.id = u.1
    · obtain ⟨a, ha⟩ := ih { r with amount := u.2 }
      exact ⟨a, by rw [updStep, if_pos hc]; exact ha⟩
    · obtain ⟨a, ha⟩ := ih r
      exact ⟨a, by rw [updStep, if_neg hc]; exact ha⟩

theorem foldUpd_single (r : Receipt) (c : Int) :
    ∀ us : List (Nat × Int), us.filter (fun u => decide (u.1 = r.id)) = [(r.id, c)] →
      foldUpd us r = { r with amount := c } := by
  intro us
  induction us with
  | nil => intro h; simp at h
  | cons u us ih =>
    intro h
    by_cases hc : u.1 = r.id
    · rw [List.filter_cons_of_pos (by simpa using hc)] at h
      have hu : u = (r.id, c) := (List.cons_eq_cons.mp h).1
      have hrest : us.filter (fun u => decide (u.1 = r.id)) = [] :=
        (List.cons_eq_cons.mp h).2
      have hnone : ∀ v ∈ us, v.1 ≠ r.id := by
        intro v hv hvid
        have : v ∈ us.filter (fun u => decide (u.1 = r.id)) :=
          List.mem_filter.mpr ⟨hv, by simpa using hvid⟩
        rw [hrest] at this
        simp at this
      have hstep : updStep r u = { r with amount := c } := by
        rw [hu]; simp [updStep]
      show foldUpd us (updStep r u) = { r with amount := c }
      rw [hstep]
      exact foldUpd_not_touched _ us hnone
    · rw [List.filter_cons_of_neg (by simpa using hc)] at h
      have hne : ¬ r.id = u.1 := fun h2 => hc h2.symm
      have hstep : updStep r u = r := by
        simp [updStep, hne]
      show foldUpd us (updStep r u) = { r with amount := c }
      rw [hstep]
      exact ih h

theorem foldUpd_pos : ∀ (us : List (Nat × Int)), (∀ u ∈ us, (0 : Int) < u.2) →
    ∀ r : Receipt, foldUpd us r = r ∨ 0 < (foldUpd us r).amount := by
  intro us
  induction us with
  | nil => intro _ r; exact Or.inl rfl
  | cons u us ih =>
    intro h r
    have hpos : (0 : Int) < u.2 := h u (by simp)
    have htail : ∀ v ∈ us, (0 : Int) < v.2 := fun v hv => h v (by simp [hv])
    show foldUpd us (updStep r u) = r ∨ 0 < (foldUpd us (updStep r u)).amount
    by_cases hc : r.id = u.1
    · have hstep : updStep r u = { r with amount := u.2 } := by rw [updStep, if_pos hc]
      rw [hstep]
      rcases ih htail { r with amount := u.2 } with heq | hlt
      · right; rw [heq]; exact hpos
      · right; exact hlt
    · have hstep : updStep r u = r := by rw [updStep, if_neg hc]
      rw [hstep]
      exact ih htail r

theorem map_key_inj {α K : Type} (key : α → K) :
    ∀ l : List α, (l.map key).Nodup → ∀ x ∈ l, ∀ y ∈ l, key x = key y → x = y := by
  intro l
  induction l with
  | nil => intro _ x hx; simp at hx
  | cons a l ih =>
    intro hnd x hx y hy hk
    rw [List.map_cons, List.nodup_cons] at hnd
    rcases List.mem_cons.mp hx with hxa | hx
    · rcases List.mem_cons.mp hy with hya | hy
      · rw [hxa, hya]
      · exfalso
        apply hnd.1
        rw [hxa] at hk
        rw [hk]
        exact List.mem_map_of_mem key hy
    · rcases List.mem_cons.mp hy with hya | hy
      · exfalso
        apply hnd.1
        rw [hya] at hk
        rw [← hk]
        exact List.mem_map_of_mem key hx
      · exact ih hnd.2 x hx y hy hk

theorem filterMap_key_single {α F K : Type} [DecidableEq K] (key : α → K) (kf : F → K)
    (g : α → Option F) (hg : ∀ x y, g x = some y → kf y = key x) :
    ∀ xs : List α, (xs.map key).Nodup → ∀ x ∈ xs, ∀ y, g x = some y →
      (xs.filterMap g).filter (fun f => decide (kf f = key x)) = [y] := by
  intro xs
  induction xs with
  | nil => intro _ x hx; simp at hx
  | cons a l ih =>
    intro hnd x hx y hy
    rw [List.map_cons, List.nodup_cons] at hnd
    rcases List.mem_cons.mp hx with rfl | hx
    · rw [List.filterMap_cons, hy]
      rw [List.filter_cons_of_pos (by simpa using hg x y hy)]
      have hrest : (l.filterMap g).filter (fun f => decide (kf f = key x)) = [] := by
        rw [List.filter_eq_nil_iff]
        intro f hf
        obtain ⟨z, hz, hgz⟩ := List.mem_filterMap.mp hf
        have : kf f = key z := hg z f hgz
        simp only [decide_eq_true_eq, this]
        intro heq
        exact hnd.1 (heq ▸ List.mem_map_of_mem key hz)
      rw [hrest]
    · rw [List.filterMap_cons]
      have hkey : key a ≠ key x := by
        intro heq
        exact hnd.1 (heq ▸ List.mem_map_of_mem key hx)
      cases hga : g a with
      | none => exact ih hnd.2 x hx y hy
      | some b =>
        have : kf b = key a := hg a b hga
        rw [List.filter_cons_of_neg (by simp [this, hkey])]
        exact ih hnd.2 x hx y hy

theorem filterMap_key_none {α F K : Type} [DecidableEq K] (key : α → K) (kf : F → K)
    (g : α → Option F) (hg : ∀ x y, g x = some y → kf y = key x) :
    ∀ xs : List α, (xs.map key).Nodup → ∀ x ∈ xs, g x = none →
      ∀ f ∈ xs.filterMap g, kf f ≠ key x := by
  intro xs
  induction xs with
  | nil => intro _ x hx; simp at hx
  | cons a l ih =>
    intro hnd x hx hgx f hf
    rw [List.map_cons, List.nodup_cons] at hnd
    rcases List.mem_cons.mp hx with rfl | hx
    · rw [List.filterMap_cons, hgx] at hf
      obtain ⟨z, hz, hgz⟩ := List.mem_filterMap.mp hf
      have : kf f = key z := hg z f hgz
      rw [this]
      intro heq
      exact hnd.1 (heq ▸ List.mem_map_of_mem key hz)
    · rw [List.filterMap_cons] at hf
      cases hga : g a with
      | none => rw [hga] at hf; exact ih hnd.2 x hx hgx f hf
      | some b =>
        rw [hga] at hf
        rcases List.mem_cons.mp hf with rfl | hf
        · have : kf f = key a := hg a f hga
          rw [this]
          intro heq
          exact hnd.1 (heq ▸ List.mem_map_of_mem key hx)
        · exact ih hnd.2 x hx hgx f hf

theorem forall₂_map_self {α β : Type} (P : α → β → Prop) (f : α → β) :
    ∀ l : List α, (∀ x ∈ l, P x (f x)) → List.Forall₂ P l (l.map f) := by
  intro l
  induction l with
  | nil => intro _; exact List.Forall₂.nil
  | cons a l ih =>
    intro h
    exact List.Forall₂.cons (h a (by simp)) (ih (fun x hx => h x (by simp [hx])))

/-- `FixedReceipt` record logged for receipt `r` corrected to `c`. -/
def mkZeroFixRec (r : Receipt) (c : Int) : FixedReceipt :=
  { receiptNumber := r.receiptNumber
    billNumber := r.billNumber
    oldAmount := r.amount
    newAmount := c
    type := r.type }

/-- `SpecFixed` record logged for receipt `r` corrected to `c`. -/
def mkSpecFixRec (r : Receipt) (c : Int) : SpecFixed :=
  { receiptNumber := r.receiptNumber
    oldAmount := r.amount
    newAmount := c }

theorem zeroFixDecision_none_of_no_bill (bills : List Bill) (r : Receipt) :
    billFindById bills r.billingId = none → zeroFixDecision bills r = none := by
  intro h
  rw [zeroFixDecision, h]

theorem zeroFixDecision_none_of_payment (bills : List Bill) (r : Receipt) :
    r.type = "payment" → zeroFixDecision bills r = none := by
  intro h
  cases hb : billFindById bills r.billingId with
  | none => exact zeroFixDecision_none_of_no_bill bills r hb
  | some billing => simp only [zeroFixDecision, hb, if_pos h]

theorem fixZeroPass_eq (bills : List Bill) : ∀ rs : List Receipt,
    fixZeroPass bills rs =
      (rs.filterMap (fun r => (zeroFixDecision bills r).map (mkZeroFixRec r)),
       rs.filterMap (fun r => (zeroFixDecision bills r).map (fun c => (r.id, c)))) := by
  intro rs
  induction rs with
  | nil => rfl
  | cons r rs ih =>
    cases hb : billFindById bills r.billingId with
    | none =>
      have hd : zeroFixDecision bills r = none := zeroFixDecision_none_of_no_bill bills r hb
      simp only [fixZeroPass, hb, List.filterMap_cons, hd, Option.map_none', ih]
    | some billing =>
      by_cases hp : r.type = "payment"
      · have hd : zeroFixDecision bills r = none := zeroFixDecision_none_of_payment bills r hp
        simp only [fixZeroPass, hb, if_pos hp, List.filterMap_cons, hd, Option.map_none', ih]
      · by_cases hg : (if r.type = "creation" then billing.payment.paid
            else if r.type = "cancellation" then billing.payment.paid else 0) > 0 ∧
            (if r.type = "creation" then billing.payment.paid
            else if r.type = "cancellation" then billing.payment.paid else 0) ≠ r.amount
        · have hd : zeroFixDecision bills r =
              some (if r.type = "creation" then billing.payment.paid
                else if r.type = "cancellation" then billing.payment.paid else 0) := by
            simp only [zeroFixDecision, hb, if_neg hp, if_pos hg]
          simp only [fixZeroPass, hb, if_neg hp, if_pos hg, List.filterMap_cons, hd,
            Option.map_some', ih, mkZeroFixRec]
        · have hd : zeroFixDecision bills r = none := by
            simp only [zeroFixDecision, hb, if_neg hp, if_neg hg]
          simp only [fixZeroPass, hb, if_neg hp, if_neg hg, List.filterMap_cons, hd,
            Option.map_none', ih]

theorem fixSpecificPass_eq (billing : Bill) : ∀ rs : List Receipt,
    fixSpecificPass billing rs =
      (rs.filterMap (fun r => (specFixDecision billing r).map (mkSpecFixRec r)),
       rs.filterMap (fun r => (specFixDecision billing r).map (fun c => (r.id, c)))) := by
  intro rs
  induction rs with
  | nil => rfl
  | cons r rs ih =>
    rw [List.filterMap_cons, List.filterMap_cons]
    show (let correctAmount := correctAmountFor billing r
      let rest := fixSpecificPass billing rs
      if correctAmount > 0 ∧ correctAmount ≠ r.amount then
        ({ receiptNumber := r.receiptNumber
           oldAmount := r.amount
           newAmount := correctAmount } :: rest.1,
         (r.id, correctAmount) :: rest.2)
      else rest) = _
    rw [specFixDecision]
    by_cases hg : correctAmountFor billing r > 0 ∧ correctAmountFor billing r ≠ r.amount
    · rw [if_pos hg, if_pos hg, ih]
      rfl
    · rw [if_neg hg, if_neg hg]
      exact ih

theorem zeroFixDecision_pos (bills : List Bill) (r : Receipt) (c : Int) :
    zeroFixDecision bills r = some c → 0 < c := by
  cases hb : billFindById bills r.billingId with
  | none =>
    simp only [zeroFixDecision, hb]
    intro h; simp at h
  | some billing =>
    by_cases hp : r.type = "payment"
    · simp only [zeroFixDecision, hb, if_pos hp]
      intro h; simp at h
    · by_cases hg : (if r.type = "creation" then billing.payment.paid
          else if r.type = "cancellation" then billing.payment.paid else 0) > 0 ∧
          (if r.type = "creation" then billing.payment.paid
          else if r.type = "cancellation" then billing.payment.paid else 0) ≠ r.amount
      · simp only [zeroFixDecision, hb, if_neg hp, if_pos hg]
        intro h
        rw [← Option.some.inj h]
        exact hg.1
      · simp only [zeroFixDecision, hb, if_neg hp, if_neg hg]
        intro h; simp at h

theorem correctAmountFor_eq_inner (billing : Bill) (r : Receipt) :
    (if r.type = "creation" then billing.payment.paid
      else if r.type = "cancellation" then billing.payment.paid else 0) =
    correctAmountFor billing r := rfl

theorem zeroFixDecision_none_of_nonpos (bills : List Bill) (r : Receipt) (b : Bill) :
    billFindById bills r.billingId = some b → correctAmountFor b r ≤ 0 →
    zeroFixDecision bills r = none := by
  intro hb hle
  by_cases hp : r.type = "payment"
  · exact zeroFixDecision_none_of_payment bills r hp
  · have hg : ¬ ((if r.type = "creation" then b.payment.paid
        else if r.type = "cancellation" then b.payment.paid else 0) > 0 ∧
        (if r.type = "creation" then b.payment.paid
        else if r.type = "cancellation" then b.payment.paid else 0) ≠ r.amount) := by
      intro hg
      rw [correctAmountFor_eq_inner] at hg
      exact absurd hg.1 (not_lt.mpr hle)
    simp only [zeroFixDecision, hb, if_neg hp, if_neg hg]

theorem zeroFixDecision_fire (bills : List Bill) (r : Receipt) (b : Bill) :
    billFindById bills r.billingId = some b →
    (r.type = "creation" ∨ r.type = "cancellation") →
    0 < b.payment.paid → b.payment.paid ≠ r.amount →
    zeroFixDecision bills r = some b.payment.paid := by
  intro hb hty hpos hne
  have hp : ¬ r.type = "payment" := by
    rcases hty with h | h <;> rw [h] <;> decide
  have hca : (if r.type = "creation" then b.payment.paid
      else if r.type = "cancellation" then b.payment.paid else 0) = b.payment.paid := by
    rcases hty with h | h <;> simp [h]
  simp only [zeroFixDecision, hb, if_neg hp, hca, if_pos (And.intro hpos hne)]

theorem specFixDecision_pos (billing : Bill) (r : Receipt) (c : Int) :
    specFixDecision billing r = some c → 0 < c := by
  rw [specFixDecision]
  by_cases hg : correctAmountFor billing r > 0 ∧ correctAmountFor billing r ≠ r.amount
  · rw [if_pos hg]
    intro h
    rw [← Option.some.inj h]
    exact hg.1
  · rw [if_neg hg]; intro h; simp at h

theorem specFixDecision_none_of_nonpos (billing : Bill) (r : Receipt) :
    correctAmountFor billing r ≤ 0 → specFixDecision billing r = none := by
  intro hle
  rw [specFixDecision, if_neg]
  intro hg
  exact absurd hg.1 (not_lt.mpr hle)

theorem correctAmountFor_payment (billing : Bill) (r : Receipt) :
    r.type = "payment" → correctAmountFor billing r = 0 := by
  intro h
  simp [correctAmountFor, h]

theorem specFixDecision_fire (billing : Bill) (r : Receipt) :
    (r.type = "creation" ∨ r.type = "cancellation") →
    0 < billing.payment.paid → billing.payment.paid ≠ r.amount →
    specFixDecision billing r = some billing.payment.paid := by
  intro hty hpos hne
  have hca : correctAmountFor billing r = billing.payment.paid := by
    rcases hty with h | h <;> simp [correctAmountFor, h]
  rw [specFixDecision, hca, if_pos ⟨hpos, hne⟩]

theorem mem_billsWithoutReceipts (bills : List Bill) (receipts : List Receipt) (b : Bill) :
    b ∈ billsWithoutReceipts bills receipts ↔
      b ∈ bills ∧ ∀ r ∈ receipts, r.billNumber ≠ b.billNumber := by
  rw [billsWithoutReceipts, List.mem_filter]
  constructor
  · rintro ⟨hb, hf⟩
    refine ⟨hb, ?_⟩
    intro r hr heq
    rw [Bool.not_eq_eq_eq_not, Bool.not_true, List.any_eq_false] at hf
    have := hf r hr
    rw [heq] at this
    simp at this
  · rintro ⟨hb, hf⟩
    refine ⟨hb, ?_⟩
    rw [Bool.not_eq_eq_eq_not, Bool.not_true, List.any_eq_false]
    intro r hr
    simpa using hf r hr

theorem createLoop_length (gen : Nat → String) (fid : Nat → Nat) :
    ∀ (bs : List Bill) (k : Nat), (createLoop gen fid k bs).length =
      (bs.filter (fun b => decide (b.payment.paid > 0))).length := by
  intro bs
  induction bs with
  | nil => intro k; rfl
  | cons b bs ih =>
    intro k
    by_cases hp : b.payment.paid > 0
    · rw [createLoop, if_pos hp, List.filter_cons_of_pos (by simpa using hp)]
      simp [ih]
    · rw [createLoop, if_neg hp, List.filter_cons_of_neg (by simpa using hp)]
      exact ih k

theorem createLoop_eq_nil (gen : Nat → String) (fid : Nat → Nat) :
    ∀ (bs : List Bill) (k : Nat), (∀ b ∈ bs, ¬ b.payment.paid > 0) →
      createLoop gen fid k bs = [] := by
  intro bs
  induction bs with
  | nil => intro k _; rfl
  | cons b bs ih =>
    intro k h
    rw [createLoop, if_neg (h b (by simp))]
    exact ih k (fun x hx => h x (by simp [hx]))

theorem createLoop_mem (gen : Nat → String) (fid : Nat → Nat) :
    ∀ (bs : List Bill) (k : Nat) (b : Bill), b ∈ bs → b.payment.paid > 0 →
      ∃ rec ∈ createLoop gen fid k bs,
        rec.billNumber = b.billNumber ∧ rec.type = "creation" ∧ rec.amount = b.payment.paid := by
  intro bs
  induction bs with
  | nil => intro k b hb; simp at hb
  | cons a bs ih =>
    intro k b hb hp
    rcases List.mem_cons.mp hb with hba | hb
    · subst hba
      rw [createLoop, if_pos hp]
      exact ⟨mkMigrationReceipt gen fid k b, by simp, rfl, rfl, rfl⟩
    · by_cases hpa : a.payment.paid > 0
      · rw [createLoop, if_pos hpa]
        obtain ⟨rec, hrec, hprops⟩ := ih (k + 1) b hb hp
        exact ⟨rec, by simp [hrec], hprops⟩
      · rw [createLoop, if_neg hpa]
        exact ih k b hb hp

theorem createLoop_shape (gen : Nat → String) (fid : Nat → Nat) :
    ∀ (bs : List Bill) (k : Nat) (rec : Receipt), rec ∈ createLoop gen fid k bs →
      ∃ j b, b ∈ bs ∧ b.payment.paid > 0 ∧ rec = mkMigrationReceipt gen fid j b := by
  intro bs
  induction bs with
  | nil => intro k rec h; simp [createLoop] at h
  | cons a bs ih =>
    intro k rec h
    by_cases hpa : a.payment.paid > 0
    · rw [createLoop, if_pos hpa] at h
      rcases List.mem_cons.mp h with hh | hh
      · exact ⟨k, a, by simp, hpa, hh⟩
      · obtain ⟨j, b, hb, hp, he⟩ := ih (k + 1) rec hh
        exact ⟨j, b, by simp [hb], hp, he⟩
    · rw [createLoop, if_neg hpa] at h
      obtain ⟨j, b, hb, hp, he⟩ := ih k rec h
      exact ⟨j, b, by simp [hb], hp, he⟩

theorem createLoop_filter_nil (gen : Nat → String) (fid : Nat → Nat) (x : String) :
    ∀ (bs : List Bill) (k : Nat), (∀ b ∈ bs, b.billNumber ≠ x) →
      (createLoop gen fid k bs).filter (fun rec => rec.billNumber == x) = [] := by
  intro bs
  induction bs with
  | nil => intro k _; rfl
  | cons a bs ih =>
    intro k h
    have ha : a.billNumber ≠ x := h a (by simp)
    have htail : ∀ b ∈ bs, b.billNumber ≠ x := fun b hb => h b (by simp [hb])
    by_cases hpa : a.payment.paid > 0
    · rw [createLoop, if_pos hpa, List.filter_cons_of_neg (by simpa using ha)]
      exact ih (k + 1) htail
    · rw [createLoop, if_neg hpa]
      exact ih k htail

theorem createLoop_filter_single (gen : Nat → String) (fid : Nat → Nat) :
    ∀ (bs : List Bill) (k : Nat) (b : Bill),
      bs.Pairwise (fun x y => x.billNumber ≠ y.billNumber) →
      b ∈ bs → b.payment.paid > 0 →
      ∃ j, (createLoop gen fid k bs).filter (fun rec => rec.billNumber == b.billNumber) =
        [mkMigrationReceipt gen fid j b] := by
  intro bs
  induction bs with
  | nil => intro k b _ hb; simp at hb
  | cons a bs ih =>
    intro k b hpw hb hp
    rw [List.pairwise_cons] at hpw
    rcases List.mem_cons.mp hb with hba | hb
    · subst hba
      rw [createLoop, if_pos hp, List.filter_cons_of_pos (by simp [mkMigrationReceipt])]
      have htail : ∀ c ∈ bs, c.billNumber ≠ b.billNumber := by
        intro c hc heq
        exact (hpw.1 c hc) heq.symm
      rw [createLoop_filter_nil gen fid b.billNumber bs (k + 1) htail]
      exact ⟨k, rfl⟩
    · have hne : a.billNumber ≠ b.billNumber := hpw.1 b hb
      by_cases hpa : a.payment.paid > 0
      · rw [createLoop, if_pos hpa, List.filter_cons_of_neg (by simpa using hne)]
        exact ih (k + 1) b hpw.2 hb hp
      · rw [createLoop, if_neg hpa]
        exact ih k b hpw.2 hb hp

/-!
Claim theorems.
-/

/-- C1: for every bill with `payment.paid > 0` that has no receipt
referencing its `billNumber` in the snapshot, `createMissingReceipts`
creates exactly one new receipt with `type = "creation"`, amount equal to
`bill.payment.paid`, the bill's `billNumber`, the payment method copied
from the bill's payment, `newStatus` equal to `bill.status` and `date`
equal to `bill.date`; the success result reports `createdCount` equal to
the number of receipts so created, and exactly those receipts are appended
to the receipt ledger. -/
theorem c1_creates_exactly_one (gen : Nat → String) (fid : Nat → Nat) (db : DB) (b : Bill)
    (hpw : db.bills.Pairwise (fun x y => x.billNumber ≠ y.billNumber))
    (hb : b ∈ db.bills) (hp : b.payment.paid > 0)
    (hno : ∀ r ∈ db.receipts, r.billNumber ≠ b.billNumber) :
    (∃ rec, (createdReceipts gen fid db).filter (fun r => r.billNumber == b.billNumber) = [rec] ∧
      rec.type = "creation" ∧ rec.amount = b.payment.paid ∧ rec.billNumber = b.billNumber ∧
      rec.paymentMethod.type = b.payment.type ∧
      rec.paymentMethod.cardNumber = b.payment.cardNumber.getD "" ∧
      rec.paymentMethod.utrNumber = b.payment.utrNumber.getD "" ∧
      rec.newStatus = b.status ∧ rec.date = b.date) ∧
    (createMissingReceipts gen fid db).1.createdCount = (createdReceipts gen fid db).length ∧
    (createMissingReceipts gen fid db).2.receipts = db.receipts ++ createdReceipts gen fid db := by
  refine ⟨?_, rfl, rfl⟩
  have hmem : b ∈ billsWithoutReceipts db.bills db.receipts :=
    (mem_billsWithoutReceipts db.bills db.receipts b).mpr ⟨hb, hno⟩
  have hpw2 : (billsWithoutReceipts db.bills db.receipts).Pairwise
      (fun x y => x.billNumber ≠ y.billNumber) :=
    List.Pairwise.sublist (List.filter_sublist db.bills) hpw
  obtain ⟨j, hfilt⟩ := createLoop_filter_single gen fid
    (billsWithoutReceipts db.bills db.receipts) 0 b hpw2 hmem hp
  exact ⟨mkMigrationReceipt gen fid j b, hfilt, rfl, rfl, rfl, rfl, rfl, rfl, rfl, rfl⟩

/-- Concrete fixtures shared by the witnesses below. -/
def wGen : Nat → String := fun k => "RECW" ++ toString k

/-- Fresh internal ids for witness runs. -/
def wFid : Nat → Nat := fun k => 1000 + k

/-- Cash payment of a given amount, no card or UTR number. -/
def wPay (amt : Int) : Payment :=
  { paid := amt, type := "cash", cardNumber := none, utrNumber := none }

/-- Payment-method snapshot matching `wPay`. -/
def wPM : PaymentMethod := { type := "cash", cardNumber := "", utrNumber := "" }

/-- Bill `B1` of the C1 scenario: `payment.paid = 500`, no receipts. -/
def wB1 : Bill :=
  { id := 1, billNumber := "B1", payment := wPay 500, status := "paid",
    date := 11, createdBy := "u1" }

/-- Snapshot of the C1 scenario. -/
def wDB1 : DB := { bills := [wB1], receipts := [] }

/-- Witness for C1: on the `B1` scenario the theorem applies and
`createdCount = 1`. -/
theorem c1_creates_exactly_one_witness :
    ((∃ rec, (createdReceipts wGen wFid wDB1).filter
          (fun r => r.billNumber == wB1.billNumber) = [rec] ∧
      rec.type = "creation" ∧ rec.amount = wB1.payment.paid ∧
      rec.billNumber = wB1.billNumber ∧
      rec.paymentMethod.type = wB1.payment.type ∧
      rec.paymentMethod.cardNumber = wB1.payment.cardNumber.getD "" ∧
      rec.paymentMethod.utrNumber = wB1.payment.utrNumber.getD "" ∧
      rec.newStatus = wB1.status ∧ rec.date = wB1.date) ∧
    (createMissingReceipts wGen wFid wDB1).1.createdCount =
      (createdReceipts wGen wFid wDB1).length ∧
    (createMissingReceipts wGen wFid wDB1).2.receipts =
      wDB1.receipts ++ createdReceipts wGen wFid wDB1) ∧
    (createMissingReceipts wGen wFid wDB1).1.createdCount = 1 :=
  ⟨c1_creates_exactly_one wGen wFid wDB1 wB1 (by simp [wDB1]) (by simp [wDB1])
      (by decide) (by simp [wDB1]), by decide⟩

/-- Bill of the C2 counterexample: a paid bill whose only receipt is of type
`payment`, so no `creation` receipt references it. -/
def wBX : Bill :=
  { id := 2, billNumber := "BX", payment := wPay 100, status := "paid",
    date := 5, createdBy := "u" }

/-- The `payment`-type receipt attached to `wBX`. -/
def wRP : Receipt :=
  { id := 20, receiptNumber := "RP1", billNumber := "BX", billingId := 2,
    type := "payment", amount := 100, paymentMethod := wPM, newStatus := "paid",
    remarks := "", createdBy := "u", date := 5 }

/-- Snapshot of the C2 counterexample. -/
def wDBX : DB := { bills := [wBX], receipts := [wRP] }

/-- C2 counterexample: bill `BX` has `payment.paid > 0` and no receipt of
type `creation` references it, yet the audit report lists no missing bill
and `createMissingReceipts` creates nothing — the code keys the
missing-receipt classification on receipts of any type, not only on
`creation` receipts. -/
theorem c2_counterexample_payment_receipt_blocks :
    wBX ∈ wDBX.bills ∧ wBX.payment.paid > 0 ∧
    wDBX.receipts.filter
      (fun r => r.type == "creation" && r.billNumber == wBX.billNumber) = [] ∧
    (getReceiptAuditReport wDBX).billsWithoutReceipts = [] ∧
    createdReceipts wGen wFid wDBX = [] ∧
    (createMissingReceipts wGen wFid wDBX).1.createdCount = 0 := by decide

/-- C2 (amended): for every bill with `payment.paid > 0`, if no receipt of
any type references that bill's `billNumber`, the bill is classified as
missing: it appears in the audit report's `billsWithoutReceipts` list and
`createMissingReceipts` synthesizes a `creation` receipt for it. -/
theorem c2_missing_classification (gen : Nat → String) (fid : Nat → Nat) (db : DB) (b : Bill)
    (hb : b ∈ db.bills) (hp : b.payment.paid > 0)
    (hno : ∀ r ∈ db.receipts, r.billNumber ≠ b.billNumber) :
    (∃ e ∈ (getReceiptAuditReport db).billsWithoutReceipts,
        e.billNumber = b.billNumber ∧ e.paidAmount = b.payment.paid) ∧
    ∃ rec ∈ createdReceipts gen fid db,
      rec.billNumber = b.billNumber ∧ rec.type = "creation" ∧
      rec.amount = b.payment.paid := by
  constructor
  · have hrf : receiptsFor db.receipts b.billNumber = [] := by
      rw [receiptsFor, List.filter_eq_nil_iff]
      intro r hr
      simpa using hno r hr
    refine ⟨{ billNumber := b.billNumber, paidAmount := b.payment.paid,
              status := b.status, date := b.date }, ?_, rfl, rfl⟩
    simp only [getReceiptAuditReport]
    apply List.mem_map_of_mem
    rw [List.mem_filter]
    refine ⟨hb, ?_⟩
    rw [hrf]
    simpa using hp
  · have hmem : b ∈ billsWithoutReceipts db.bills db.receipts :=
      (mem_billsWithoutReceipts db.bills db.receipts b).mpr ⟨hb, hno⟩
    exact createLoop_mem gen fid (billsWithoutReceipts db.bills db.receipts) 0 b hmem hp

/-- Witness for the amended C2 at the `B1` scenario. -/
theorem c2_missing_classification_witness :
    (∃ e ∈ (getReceiptAuditReport wDB1).billsWithoutReceipts,
        e.billNumber = wB1.billNumber ∧ e.paidAmount = wB1.payment.paid) ∧
    ∃ rec ∈ createdReceipts wGen wFid wDB1,
      rec.billNumber = wB1.billNumber ∧ rec.type = "creation" ∧
      rec.amount = wB1.payment.paid :=
  c2_missing_classification wGen wFid wDB1 wB1 (by simp [wDB1]) (by decide)
    (by simp [wDB1])

/-- C3: running `createMissingReceipts` a second time in succession, the
second run reading the state produced by the first, creates zero
additional receipts and leaves the ledgers unchanged — for any snapshot
and any receipt-number/id generators. -/
theorem c3_second_pass_creates_nothing (gen1 gen2 : Nat → String)
    (fid1 fid2 : Nat → Nat) (db : DB) :
    (createMissingReceipts gen2 fid2 (createMissingReceipts gen1 fid1 db).2).1.createdCount = 0 ∧
    (createMissingReceipts gen2 fid2 (createMissingReceipts gen1 fid1 db).2).2 =
      (createMissingReceipts gen1 fid1 db).2 := by
  have hnil : createdReceipts gen2 fid2 (createMissingReceipts gen1 fid1 db).2 = [] := by
    apply createLoop_eq_nil
    intro b hbw
    rw [mem_billsWithoutReceipts] at hbw
    obtain ⟨hb, hno⟩ := hbw
    intro hp
    have hno1 : ∀ r ∈ db.receipts, r.billNumber ≠ b.billNumber := by
      intro r hr
      exact hno r (List.mem_append_left _ hr)
    have hmem : b ∈ billsWithoutReceipts db.bills db.receipts :=
      (mem_billsWithoutReceipts db.bills db.receipts b).mpr ⟨hb, hno1⟩
    obtain ⟨rec, hrec, hbn, -, -⟩ :=
      createLoop_mem gen1 fid1 (billsWithoutReceipts db.bills db.receipts) 0 b hmem hp
    exact hno rec (List.mem_append_right _ hrec) hbn
  constructor
  · have h1 : (createMissingReceipts gen2 fid2 (createMissingReceipts gen1 fid1 db).2).1.createdCount
        = (createdReceipts gen2 fid2 (createMissingReceipts gen1 fid1 db).2).length := rfl
    rw [h1, hnil]
    rfl
  · have h2 : (createMissingReceipts gen2 fid2 (createMissingReceipts gen1 fid1 db).2).2
        = { (createMissingReceipts gen1 fid1 db).2 with
            receipts := (createMissingReceipts gen1 fid1 db).2.receipts ++
              createdReceipts gen2 fid2 (createMissingReceipts gen1 fid1 db).2 } := rfl
    rw [h2, hnil, List.append_nil]

/-- Update list buffered by one `fixZeroAmountReceipts` pass. -/
def zeroUpds (db : DB) : List (Nat × Int) :=
  (zeroAmountReceipts db.receipts).filterMap
    (fun x => (zeroFixDecision db.bills x).map (fun c => (x.id, c)))

theorem fixZero_final (db : DB) :
    (fixZeroAmountReceipts db).2.receipts = db.receipts.map (foldUpd (zeroUpds db)) := by
  show applyUpdates db.receipts (fixZeroPass db.bills (zeroAmountReceipts db.receipts)).2 = _
  rw [fixZeroPass_eq, applyUpdates_eq_map]
  rfl

theorem fixZero_fixed (db : DB) :
    (fixZeroAmountReceipts db).1.fixedReceipts =
      (zeroAmountReceipts db.receipts).filterMap
        (fun x => (zeroFixDecision db.bills x).map (mkZeroFixRec x)) := by
  show (fixZeroPass db.bills (zeroAmountReceipts db.receipts)).1 = _
  rw [fixZeroPass_eq]

theorem fixZero_bills (db : DB) : (fixZeroAmountReceipts db).2.bills = db.bills := rfl

theorem zeros_id_nodup (db : DB) (h : (db.receipts.map Receipt.id).Nodup) :
    ((zeroAmountReceipts db.receipts).map Receipt.id).Nodup :=
  ((List.filter_sublist db.receipts).map Receipt.id).nodup h

theorem zeros_rn_nodup (db : DB) (h : (db.receipts.map Receipt.receiptNumber).Nodup) :
    ((zeroAmountReceipts db.receipts).map Receipt.receiptNumber).Nodup :=
  ((List.filter_sublist db.receipts).map Receipt.receiptNumber).nodup h

theorem fixZero_unchanged (db : DB) (hid : (db.receipts.map Receipt.id).Nodup)
    (r : Receipt) (hr : r ∈ db.receipts)
    (hdec : zeroFixDecision db.bills r = none ∨ 0 < r.amount) :
    foldUpd (zeroUpds db) r = r := by
  apply foldUpd_not_touched
  intro u hu
  obtain ⟨x, hx, hg⟩ := List.mem_filterMap.mp hu
  obtain ⟨c, hc, huc⟩ := Option.map_eq_some'.mp hg
  intro hid_eq
  have hu1 : u.1 = x.id := by rw [← huc]
  have hxmem : x ∈ db.receipts := (List.mem_filter.mp hx).1
  have heq : x = r :=
    map_key_inj Receipt.id db.receipts hid x hxmem r hr (by rw [← hu1, hid_eq])
  rw [heq] at hx hc
  rcases hdec with hnone | hposamt
  · rw [hnone] at hc
    exact Option.noConfusion hc
  · have hle : r.amount ≤ 0 := by simpa using (List.mem_filter.mp hx).2
    exact absurd hposamt (not_lt.mpr hle)

theorem fixZero_excluded (db : DB)
    (hrn : (db.receipts.map Receipt.receiptNumber).Nodup)
    (r : Receipt) (hr : r ∈ db.receipts)
    (hdec : zeroFixDecision db.bills r = none ∨ 0 < r.amount) :
    ∀ f ∈ (fixZeroAmountReceipts db).1.fixedReceipts,
      f.receiptNumber ≠ r.receiptNumber := by
  rw [fixZero_fixed]
  intro f hf heq
  obtain ⟨x, hx, hg⟩ := List.mem_filterMap.mp hf
  obtain ⟨c, hc, hfc⟩ := Option.map_eq_some'.mp hg
  have hfr : f.receiptNumber = x.receiptNumber := by rw [← hfc]; rfl
  have hxmem : x ∈ db.receipts := (List.mem_filter.mp hx).1
  have hxr : x = r :=
    map_key_inj Receipt.receiptNumber db.receipts hrn x hxmem r hr (by rw [← hfr, heq])
  rw [hxr] at hx hc
  rcases hdec with hnone | hposamt
  · rw [hnone] at hc
    exact Option.noConfusion hc
  · have hle : r.amount ≤ 0 := by simpa using (List.mem_filter.mp hx).2
    exact absurd hposamt (not_lt.mpr hle)

theorem fixZero_updates_single (db : DB) (hid : (db.receipts.map Receipt.id).Nodup)
    (r : Receipt) (hr : r ∈ db.receipts) (hz : r.amount ≤ 0) (c : Int)
    (hc : zeroFixDecision db.bills r = some c) :
    (zeroUpds db).filter (fun u => decide (u.1 = r.id)) = [(r.id, c)] := by
  have hmemz : r ∈ zeroAmountReceipts db.receipts :=
    List.mem_filter.mpr ⟨hr, by simpa using hz⟩
  exact filterMap_key_single Receipt.id Prod.fst
    (fun x => (zeroFixDecision db.bills x).map (fun c => (x.id, c)))
    (by
      intro x y hxy
      obtain ⟨c', -, hy⟩ := Option.map_eq_some'.mp hxy
      rw [← hy])
    (zeroAmountReceipts db.receipts) (zeros_id_nodup db hid) r hmemz (r.id, c)
    (by simp [hc])

theorem fixZero_sets_amount (db : DB) (hid : (db.receipts.map Receipt.id).Nodup)
    (r : Receipt) (hr : r ∈ db.receipts) (hz : r.amount ≤ 0) (c : Int)
    (hc : zeroFixDecision db.bills r = some c) :
    { r with amount := c } ∈ (fixZeroAmountReceipts db).2.receipts := by
  rw [fixZero_final]
  have hf : foldUpd (zeroUpds db) r = { r with amount := c } :=
    foldUpd_single r c (zeroUpds db) (fixZero_updates_single db hid r hr hz c hc)
  rw [← hf]
  exact List.mem_map_of_mem _ hr

theorem fixZero_fixed_single (db : DB)
    (hrn : (db.receipts.map Receipt.receiptNumber).Nodup)
    (r : Receipt) (hr : r ∈ db.receipts) (hz : r.amount ≤ 0) (c : Int)
    (hc : zeroFixDecision db.bills r = some c) :
    (fixZeroAmountReceipts db).1.fixedReceipts.filter
      (fun f => decide (f.receiptNumber = r.receiptNumber)) = [mkZeroFixRec r c] := by
  rw [fixZero_fixed]
  have hmemz : r ∈ zeroAmountReceipts db.receipts :=
    List.mem_filter.mpr ⟨hr, by simpa using hz⟩
  exact filterMap_key_single Receipt.receiptNumber FixedReceipt.receiptNumber
    (fun x => (zeroFixDecision db.bills x).map (mkZeroFixRec x))
    (by
      intro x y hxy
      obtain ⟨c', -, hy⟩ := Option.map_eq_some'.mp hxy
      rw [← hy]
      rfl)
    (zeroAmountReceipts db.receipts) (zeros_rn_nodup db hrn) r hmemz (mkZeroFixRec r c)
    (by simp [hc])

/-- Receipts of the target bill examined by `fixSpecificBillReceipt`. -/
def billReceipts (db : DB) (bn : String) : List Receipt :=
  db.receipts.filter (fun r => r.billNumber == bn)

/-- Update list buffered by one `fixSpecificBillReceipt` pass for a found
billing record. -/
def specUpds (db : DB) (bn : String) (billing : Bill) : List (Nat × Int) :=
  (billReceipts db bn).filterMap
    (fun x => (specFixDecision billing x).map (fun c => (x.id, c)))

theorem fixSpecific_final (bn : String) (db : DB) (billing : Bill)
    (hfind : db.bills.find? (fun b => b.billNumber == bn) = some billing) :
    (fixSpecificBillReceipt bn db).2.receipts =
      db.receipts.map (foldUpd (specUpds db bn billing)) := by
  simp only [fixSpecificBillReceipt, hfind]
  show applyUpdates db.receipts (fixSpecificPass billing (billReceipts db bn)).2 = _
  rw [fixSpecificPass_eq, applyUpdates_eq_map]
  rfl

theorem fixSpecific_fixed (bn : String) (db : DB) (billing : Bill)
    (hfind : db.bills.find? (fun b => b.billNumber == bn) = some billing) :
    (fixSpecificBillReceipt bn db).1.fixedReceipts =
      (billReceipts db bn).filterMap
        (fun x => (specFixDecision billing x).map (mkSpecFixRec x)) := by
  simp only [fixSpecificBillReceipt, hfind]
  show (fixSpecificPass billing (billReceipts db bn)).1 = _
  rw [fixSpecificPass_eq]

theorem fixSpecific_bills (bn : String) (db : DB) :
    (fixSpecificBillReceipt bn db).2.bills = db.bills := by
  cases hfind : db.bills.find? (fun b => b.billNumber == bn) with
  | none => simp only [fixSpecificBillReceipt, hfind]
  | some billing => simp only [fixSpecificBillReceipt, hfind]

theorem fixSpecific_notFound (bn : String) (db : DB)
    (hfind : db.bills.find? (fun b => b.billNumber == bn) = none) :
    (fixSpecificBillReceipt bn db).2 = db := by
  simp only [fixSpecificBillReceipt, hfind]

theorem billReceipts_id_nodup (db : DB) (bn : String)
    (h : (db.receipts.map Receipt.id).Nodup) :
    ((billReceipts db bn).map Receipt.id).Nodup :=
  ((List.filter_sublist db.receipts).map Receipt.id).nodup h

theorem billReceipts_rn_nodup (db : DB) (bn : String)
    (h : (db.receipts.map Receipt.receiptNumber).Nodup) :
    ((billReceipts db bn).map Receipt.receiptNumber).Nodup :=
  ((List.filter_sublist db.receipts).map Receipt.receiptNumber).nodup h

theorem fixSpecific_unchanged (db : DB) (bn : String) (billing : Bill)
    (hid : (db.receipts.map Receipt.id).Nodup)
    (r : Receipt) (hr : r ∈ db.receipts)
    (hdec : specFixDecision billing r = none ∨ r.billNumber ≠ bn) :
    foldUpd (specUpds db bn billing) r = r := by
  apply foldUpd_not_touched
  intro u hu
  obtain ⟨x, hx, hg⟩ := List.mem_filterMap.mp hu
  obtain ⟨c, hc, huc⟩ := Option.map_eq_some'.mp hg
  intro hid_eq
  have hu1 : u.1 = x.id := by rw [← huc]
  have hxmem : x ∈ db.receipts := (List.mem_filter.mp hx).1
  have heq : x = r :=
    map_key_inj Receipt.id db.receipts hid x hxmem r hr (by rw [← hu1, hid_eq])
  rw [heq] at hx hc
  rcases hdec with hnone | hbn
  · rw [hnone] at hc
    exact Option.noConfusion hc
  · have : r.billNumber = bn := by simpa using (List.mem_filter.mp hx).2
    exact hbn this

theorem fixSpecific_excluded (db : DB) (bn : String) (billing : Bill)
    (hfind : db.bills.find? (fun b => b.billNumber == bn) = some billing)
    (hrn : (db.receipts.map Receipt.receiptNumber).Nodup)
    (r : Receipt) (hr : r ∈ db.receipts)
    (hdec : specFixDecision billing r = none ∨ r.billNumber ≠ bn) :
    ∀ f ∈ (fixSpecificBillReceipt bn db).1.fixedReceipts,
      f.receiptNumber ≠ r.receiptNumber := by
  rw [fixSpecific_fixed bn db billing hfind]
  intro f hf heq
  obtain ⟨x, hx, hg⟩ := List.mem_filterMap.mp hf
  obtain ⟨c, hc, hfc⟩ := Option.map_eq_some'.mp hg
  have hfr : f.receiptNumber = x.receiptNumber := by rw [← hfc]; rfl
  have hxmem : x ∈ db.receipts := (List.mem_filter.mp hx).1
  have hxr : x = r :=
    map_key_inj Receipt.receiptNumber db.receipts hrn x hxmem r hr (by rw [← hfr, heq])
  rw [hxr] at hx hc
  rcases hdec with hnone | hbn
  · rw [hnone] at hc
    exact Option.noConfusion hc
  · have : r.billNumber = bn := by simpa using (List.mem_filter.mp hx).2
    exact hbn this

theorem fixSpecific_updates_single (db : DB) (bn : String) (billing : Bill)
    (hid : (db.receipts.map Receipt.id).Nodup)
    (r : Receipt) (hr : r ∈ db.receipts) (hbn : r.billNumber = bn) (c : Int)
    (hc : specFixDecision billing r = some c) :
    (specUpds db bn billing).filter (fun u => decide (u.1 = r.id)) = [(r.id, c)] := by
  have hmemb : r ∈ billReceipts db bn :=
    List.mem_filter.mpr ⟨hr, by simpa using hbn⟩
  exact filterMap_key_single Receipt.id Prod.fst
    (fun x => (specFixDecision billing x).map (fun c => (x.id, c)))
    (by
      intro x y hxy
      obtain ⟨c', -, hy⟩ := Option.map_eq_some'.mp hxy
      rw [← hy])
    (billReceipts db bn) (billReceipts_id_nodup db bn hid) r hmemb (r.id, c)
    (by simp [hc])

theorem fixSpecific_sets_amount (db : DB) (bn : String) (billing : Bill)
    (hfind : db.bills.find? (fun b => b.billNumber == bn) = some billing)
    (hid : (db.receipts.map Receipt.id).Nodup)
    (r : Receipt) (hr : r ∈ db.receipts) (hbn : r.billNumber = bn) (c : Int)
    (hc : specFixDecision billing r = some c) :
    { r with amount := c } ∈ (fixSpecificBillReceipt bn db).2.receipts := by
  rw [fixSpecific_final bn db billing hfind]
  have hf : foldUpd (specUpds db bn billing) r = { r with amount := c } :=
    foldUpd_single r c (specUpds db bn billing)
      (fixSpecific_updates_single db bn billing hid r hr hbn c hc)
  rw [← hf]
  exact List.mem_map_of_mem _ hr

theorem fixSpecific_fixed_single (db : DB) (bn : String) (billing : Bill)
    (hfind : db.bills.find? (fun b => b.billNumber == bn) = some billing)
    (hrn : (db.receipts.map Receipt.receiptNumber).Nodup)
    (r : Receipt) (hr : r ∈ db.receipts) (hbn : r.billNumber = bn) (c : Int)
    (hc : specFixDecision billing r = some c) :
    (fixSpecificBillReceipt bn db).1.fixedReceipts.filter
      (fun f => decide (f.receiptNumber = r.receiptNumber)) = [mkSpecFixRec r c] := by
  rw [fixSpecific_fixed bn db billing hfind]
  have hmemb : r ∈ billReceipts db bn :=
    List.mem_filter.mpr ⟨hr, by simpa using hbn⟩
  exact filterMap_key_single Receipt.receiptNumber SpecFixed.receiptNumber
    (fun x => (specFixDecision billing x).map (mkSpecFixRec x))
    (by
      intro x y hxy
      obtain ⟨c', -, hy⟩ := Option.map_eq_some'.mp hxy
      rw [← hy]
      rfl)
    (billReceipts db bn) (billReceipts_rn_nodup db bn hrn) r hmemb (mkSpecFixRec r c)
    (by simp [hc])

/-- Bill of the C4 counterexample. -/
def wB4 : Bill :=
  { id := 3, billNumber := "B4", payment := wPay 100, status := "paid",
    date := 6, createdBy := "u" }

/-- Creation receipt with a positive but wrong amount (50 instead of 100). -/
def wR4 : Receipt :=
  { id := 30, receiptNumber := "R4", billNumber := "B4", billingId := 3,
    type := "creation", amount := 50, paymentMethod := wPM, newStatus := "paid",
    remarks := "", createdBy := "u", date := 6 }

/-- Snapshot of the C4 counterexample. -/
def wDB4 : DB := { bills := [wB4], receipts := [wR4] }

/-- C4 counterexample: receipt `R4` is a `creation` receipt whose amount 50
differs from its bill's `payment.paid = 100 > 0`, yet `fixZeroAmountReceipts`
leaves the snapshot unchanged and reports an empty fixed list — the
operation only examines receipts with `amount <= 0`. -/
theorem c4_counterexample_positive_mismatch :
    wR4 ∈ wDB4.receipts ∧ wR4.type = "creation" ∧
    billFindById wDB4.bills wR4.billingId = some wB4 ∧
    wB4.payment.paid > 0 ∧ wR4.amount ≠ wB4.payment.paid ∧
    (fixZeroAmountReceipts wDB4).1.fixedReceipts = [] ∧
    (fixZeroAmountReceipts wDB4).2 = wDB4 := by decide

/-- C4 (amended): the deterministic correction to `bill.payment.paid` with
exactly one fix record holds for `fixZeroAmountReceipts` only on the
receipts it examines — those with `amount <= 0` — and for
`fixSpecificBillReceipt` on every `creation`/`cancellation` receipt of the
target bill whose amount differs from `payment.paid > 0`. -/
theorem c4_amount_correction (db : DB)
    (hid : (db.receipts.map Receipt.id).Nodup)
    (hrn : (db.receipts.map Receipt.receiptNumber).Nodup) :
    (∀ r ∈ db.receipts, ∀ b : Bill,
      billFindById db.bills r.billingId = some b →
      (r.type = "creation" ∨ r.type = "cancellation") →
      0 < b.payment.paid → r.amount ≤ 0 →
      { r with amount := b.payment.paid } ∈ (fixZeroAmountReceipts db).2.receipts ∧
      (fixZeroAmountReceipts db).1.fixedReceipts.filter
          (fun f => decide (f.receiptNumber = r.receiptNumber)) =
        [{ receiptNumber := r.receiptNumber, billNumber := r.billNumber,
           oldAmount := r.amount, newAmount := b.payment.paid, type := r.type }]) ∧
    (∀ bn : String, ∀ b : Bill,
      db.bills.find? (fun x => x.billNumber == bn) = some b →
      ∀ r ∈ db.receipts, r.billNumber = bn →
      (r.type = "creation" ∨ r.type = "cancellation") →
      0 < b.payment.paid → b.payment.paid ≠ r.amount →
      { r with amount := b.payment.paid } ∈ (fixSpecificBillReceipt bn db).2.receipts ∧
      (fixSpecificBillReceipt bn db).1.fixedReceipts.filter
          (fun f => decide (f.receiptNumber = r.receiptNumber)) =
        [{ receiptNumber := r.receiptNumber, oldAmount := r.amount,
           newAmount := b.payment.paid }]) := by
  constructor
  · intro r hr b hb hty hpos hz
    have hne : b.payment.paid ≠ r.amount := ne_of_gt (lt_of_le_of_lt hz hpos)
    have hc := zeroFixDecision_fire db.bills r b hb hty hpos hne
    refine ⟨fixZero_sets_amount db hid r hr hz _ hc, ?_⟩
    rw [fixZero_fixed_single db hrn r hr hz _ hc]
    rfl
  · intro bn b hfind r hr hbn hty hpos hne
    have hc := specFixDecision_fire b r hty hpos hne
    refine ⟨fixSpecific_sets_amount db bn b hfind hid r hr hbn _ hc, ?_⟩
    rw [fixSpecific_fixed_single db bn b hfind hrn r hr hbn _ hc]
    rfl

/-- Bill `B2` with `payment.paid = 300` for the zero-amount fix scenario. -/
def wB2 : Bill :=
  { id := 4, billNumber := "B2", payment := wPay 300, status := "paid",
    date := 7, createdBy := "u" }

/-- Creation receipt `R1` with `amount = 0` for bill `B2`. -/
def wR1 : Receipt :=
  { id := 50, receiptNumber := "R1", billNumber := "B2", billingId := 4,
    type := "creation", amount := 0, paymentMethod := wPM, newStatus := "paid",
    remarks := "", createdBy := "u", date := 7 }

/-- Snapshot of the zero-amount fix scenario. -/
def wDBz : DB := { bills := [wB2], receipts := [wR1] }

/-- Witness for the amended C4: `R1` (amount 0, bill paid 300) is corrected
to 300 with one fix record by `fixZeroAmountReceipts`, and `R4` (amount 50,
bill paid 100) is corrected by `fixSpecificBillReceipt`. -/
theorem c4_amount_correction_witness :
    ({ wR1 with amount := wB2.payment.paid } ∈ (fixZeroAmountReceipts wDBz).2.receipts ∧
      (fixZeroAmountReceipts wDBz).1.fixedReceipts.filter
          (fun f => decide (f.receiptNumber = wR1.receiptNumber)) =
        [{ receiptNumber := wR1.receiptNumber, billNumber := wR1.billNumber,
           oldAmount := wR1.amount, newAmount := wB2.payment.paid, type := wR1.type }]) ∧
    ({ wR4 with amount := wB4.payment.paid } ∈ (fixSpecificBillReceipt "B4" wDB4).2.receipts ∧
      (fixSpecificBillReceipt "B4" wDB4).1.fixedReceipts.filter
          (fun f => decide (f.receiptNumber = wR4.receiptNumber)) =
        [{ receiptNumber := wR4.receiptNumber, oldAmount := wR4.amount,
           newAmount := wB4.payment.paid }]) :=
  ⟨(c4_amount_correction wDBz (by decide) (by decide)).1 wR1 (by decide) wB2 (by decide)
      (Or.inl rfl) (by decide) (by decide),
   (c4_amount_correction wDB4 (by decide) (by decide)).2 "B4" wB4 (by decide) wR4 (by decide)
      rfl (Or.inl rfl) (by decide) (by decide)⟩

/-- C5: neither `fixZeroAmountReceipts` nor `fixSpecificBillReceipt` ever
writes a zero or negative amount: every logged fix carries a positive
`newAmount`, and a receipt whose computed correct amount is `<= 0` keeps
its stored amount and is excluded from the fixed list. -/
theorem c5_no_destructive_correction (db : DB)
    (hid : (db.receipts.map Receipt.id).Nodup)
    (hrn : (db.receipts.map Receipt.receiptNumber).Nodup) :
    (∀ f ∈ (fixZeroAmountReceipts db).1.fixedReceipts, 0 < f.newAmount) ∧
    (∀ r ∈ db.receipts, ∀ b : Bill,
      billFindById db.bills r.billingId = some b → correctAmountFor b r ≤ 0 →
      r ∈ (fixZeroAmountReceipts db).2.receipts ∧
      ∀ f ∈ (fixZeroAmountReceipts db).1.fixedReceipts,
        f.receiptNumber ≠ r.receiptNumber) ∧
    ∀ bn : String, ∀ b : Bill,
      db.bills.find? (fun x => x.billNumber == bn) = some b →
      (∀ f ∈ (fixSpecificBillReceipt bn db).1.fixedReceipts, 0 < f.newAmount) ∧
      (∀ r ∈ db.receipts, r.billNumber = bn → correctAmountFor b r ≤ 0 →
        r ∈ (fixSpecificBillReceipt bn db).2.receipts ∧
        ∀ f ∈ (fixSpecificBillReceipt bn db).1.fixedReceipts,
          f.receiptNumber ≠ r.receiptNumber) := by
  refine ⟨?_, ?_, ?_⟩
  · rw [fixZero_fixed]
    intro f hf
    obtain ⟨x, hx, hg⟩ := List.mem_filterMap.mp hf
    obtain ⟨c, hc, hfc⟩ := Option.map_eq_some'.mp hg
    have : f.newAmount = c := by rw [← hfc]; rfl
    rw [this]
    exact zeroFixDecision_pos db.bills x c hc
  · intro r hr b hb hle
    have hdec : zeroFixDecision db.bills r = none ∨ 0 < r.amount :=
      Or.inl (zeroFixDecision_none_of_nonpos db.bills r b hb hle)
    constructor
    · rw [fixZero_final]
      have hu := fixZero_unchanged db hid r hr hdec
      rw [← hu]
      exact List.mem_map_of_mem _ hr
    · exact fixZero_excluded db hrn r hr hdec
  · intro bn b hfind
    constructor
    · rw [fixSpecific_fixed bn db b hfind]
      intro f hf
      obtain ⟨x, hx, hg⟩ := List.mem_filterMap.mp hf
      obtain ⟨c, hc, hfc⟩ := Option.map_eq_some'.mp hg
      have : f.newAmount = c := by rw [← hfc]; rfl
      rw [this]
      exact specFixDecision_pos b x c hc
    · intro r hr hbn hle
      have hdec : specFixDecision b r = none ∨ r.billNumber ≠ bn :=
        Or.inl (specFixDecision_none_of_nonpos b r hle)
      constructor
      · rw [fixSpecific_final bn db b hfind]
        have hu := fixSpecific_unchanged db bn b hid r hr hdec
        rw [← hu]
        exact List.mem_map_of_mem _ hr
      · exact fixSpecific_excluded db bn b hfind hrn r hr hdec

/-- Unpaid bill whose creation receipt has a negative amount: the computed
correct amount is `0`, so no fix may be written. -/
def wB0 : Bill :=
  { id := 5, billNumber := "B0", payment := wPay 0, status := "pending",
    date := 2, createdBy := "u" }

/-- Negative-amount creation receipt of the unpaid bill `B0`. -/
def wR0 : Receipt :=
  { id := 60, receiptNumber := "R0", billNumber := "B0", billingId := 5,
    type := "creation", amount := -5, paymentMethod := wPM, newStatus := "pending",
    remarks := "", createdBy := "u", date := 2 }

/-- Snapshot of the no-destructive-correction scenario. -/
def wDB0 : DB := { bills := [wB0], receipts := [wR0] }

/-- Witness for C5: receipt `R0` (amount -5, bill paid 0) is preserved by
both fix operations and nothing is logged as fixed. -/
theorem c5_no_destructive_correction_witness :
    wR0 ∈ (fixZeroAmountReceipts wDB0).2.receipts ∧
    wR0 ∈ (fixSpecificBillReceipt "B0" wDB0).2.receipts ∧
    (fixZeroAmountReceipts wDB0).1.fixedReceipts = [] ∧
    (fixSpecificBillReceipt "B0" wDB0).1.fixedReceipts = [] :=
  ⟨((c5_no_destructive_correction wDB0 (by decide) (by decide)).2.1 wR0 (by decide) wB0
      (by decide) (by decide)).1,
   (((c5_no_destructive_correction wDB0 (by decide) (by decide)).2.2 "B0" wB0 (by decide)).2
      wR0 (by decide) rfl (by decide)).1,
   by decide, by decide⟩

/-- Orphaned zero-amount receipt: no bill matches its `billNumber`. -/
def wRZ : Receipt :=
  { id := 40, receiptNumber := "RZ", billNumber := "NOPE", billingId := 99,
    type := "creation", amount := 0, paymentMethod := wPM, newStatus := "paid",
    remarks := "", createdBy := "u", date := 1 }

/-- Snapshot of the C6 counterexample: one zero-amount receipt, no bills. -/
def wDB6 : DB := { bills := [], receipts := [wRZ] }

/-- C6 counterexample: receipt `RZ` has `amount <= 0` and is in the
snapshot, yet the audit report's `zeroAmountReceipts` list is empty — the
code only lists zero-amount receipts whose `billNumber` resolves to a bill
with `payment.paid > 0`. -/
theorem c6_counterexample_orphan_zero :
    wRZ ∈ wDB6.receipts ∧ wRZ.amount ≤ 0 ∧
    (getReceiptAuditReport wDB6).zeroAmountReceipts = [] := by decide

/-- C6 (amended): the audit report's `zeroAmountReceipts` list contains an
entry for a receipt of the snapshot exactly when the receipt's amount is
`<= 0` and its `billNumber` resolves to a bill with `payment.paid > 0`. -/
theorem c6_zero_amount_classification (db : DB)
    (hrn : (db.receipts.map Receipt.receiptNumber).Nodup) :
    ∀ r ∈ db.receipts,
      ((∃ e ∈ (getReceiptAuditReport db).zeroAmountReceipts,
          e.receiptNumber = r.receiptNumber) ↔
        (r.amount ≤ 0 ∧ ∃ b ∈ db.bills, b.billNumber = r.billNumber ∧
          0 < b.payment.paid)) := by
  intro r hr
  constructor
  · rintro ⟨e, he, hern⟩
    simp only [getReceiptAuditReport] at he
    obtain ⟨b, hb, he2⟩ := List.mem_flatMap.mp he
    obtain ⟨x, hx, hex⟩ := List.mem_map.mp he2
    have hxr : x ∈ receiptsFor db.receipts b.billNumber := (List.mem_filter.mp hx).1
    have hxmem : x ∈ db.receipts := (List.mem_filter.mp hxr).1
    have hxbn : x.billNumber = b.billNumber := by
      simpa using (List.mem_filter.mp hxr).2
    have hcond : x.amount ≤ 0 ∧ 0 < b.payment.paid := by
      simpa using (List.mem_filter.mp hx).2
    have hxa : x.amount ≤ 0 := hcond.1
    have hbp : 0 < b.payment.paid := hcond.2
    have hxrn : x.receiptNumber = r.receiptNumber := by
      rw [← hex] at hern
      exact hern
    have hxr2 : x = r :=
      map_key_inj Receipt.receiptNumber db.receipts hrn x hxmem r hr hxrn
    rw [hxr2] at hxa hxbn
    exact ⟨hxa, b, hb, hxbn.symm, hbp⟩
  · rintro ⟨hz, b, hb, hbn, hpos⟩
    refine ⟨{ receiptNumber := r.receiptNumber, billNumber := b.billNumber,
              receiptAmount := r.amount, expectedAmount := b.payment.paid,
              type := r.type }, ?_, rfl⟩
    simp only [getReceiptAuditReport]
    apply List.mem_flatMap.mpr
    refine ⟨b, hb, ?_⟩
    apply List.mem_map_of_mem
    apply List.mem_filter.mpr
    refine ⟨List.mem_filter.mpr ⟨hr, by simpa using hbn.symm⟩, ?_⟩
    simp only [Bool.and_eq_true, decide_eq_true_eq]
    exact ⟨hz, hpos⟩

/-- Witness for the amended C6 at the `R1`/`B2` snapshot. -/
theorem c6_zero_amount_classification_witness :
    (∃ e ∈ (getReceiptAuditReport wDBz).zeroAmountReceipts,
        e.receiptNumber = wR1.receiptNumber) ↔
      (wR1.amount ≤ 0 ∧ ∃ b ∈ wDBz.bills, b.billNumber = wR1.billNumber ∧
        0 < b.payment.paid) :=
  c6_zero_amount_classification wDBz (by decide) wR1 (by decide)

/-- C7: a `payment`-type receipt is never modified by either fix operation
and never appears in the fixed list, whatever its amount. -/
theorem c7_payment_receipts_skipped (db : DB)
    (hid : (db.receipts.map Receipt.id).Nodup)
    (hrn : (db.receipts.map Receipt.receiptNumber).Nodup) :
    ∀ r ∈ db.receipts, r.type = "payment" →
      (r ∈ (fixZeroAmountReceipts db).2.receipts ∧
        ∀ f ∈ (fixZeroAmountReceipts db).1.fixedReceipts,
          f.receiptNumber ≠ r.receiptNumber) ∧
      ∀ bn : String,
        r ∈ (fixSpecificBillReceipt bn db).2.receipts ∧
        ∀ f ∈ (fixSpecificBillReceipt bn db).1.fixedReceipts,
          f.receiptNumber ≠ r.receiptNumber := by
  intro r hr hpay
  constructor
  · have hdec : zeroFixDecision db.bills r = none ∨ 0 < r.amount :=
      Or.inl (zeroFixDecision_none_of_payment db.bills r hpay)
    refine ⟨?_, fixZero_excluded db hrn r hr hdec⟩
    rw [fixZero_final, ← fixZero_unchanged db hid r hr hdec]
    exact List.mem_map_of_mem _ hr
  · intro bn
    cases hfind : db.bills.find? (fun x => x.billNumber == bn) with
    | none =>
      constructor
      · rw [fixSpecific_notFound bn db hfind]
        exact hr
      · intro f hf
        have hempty : (fixSpecificBillReceipt bn db).1.fixedReceipts = [] := by
          simp only [fixSpecificBillReceipt, hfind]
        rw [hempty] at hf
        simp at hf
    | some b =>
      have hdec : specFixDecision b r = none ∨ r.billNumber ≠ bn := by
        apply Or.inl
        apply specFixDecision_none_of_nonpos
        rw [correctAmountFor_payment b r hpay]
      constructor
      · rw [fixSpecific_final bn db b hfind, ← fixSpecific_unchanged db bn b hid r hr hdec]
        exact List.mem_map_of_mem _ hr
      · exact fixSpecific_excluded db bn b hfind hrn r hr hdec

/-- Receipt `R2` of the C7 scenario: `payment` type, `amount = 0`. -/
def wR2 : Receipt :=
  { id := 70, receiptNumber := "R2", billNumber := "B2", billingId := 4,
    type := "payment", amount := 0, paymentMethod := wPM, newStatus := "paid",
    remarks := "", createdBy := "u", date := 7 }

/-- Snapshot of the C7 scenario: the payment receipt `R2` is followed by a
zero-amount creation receipt that the pass does correct. -/
def wDB7 : DB := { bills := [wB2], receipts := [wR2, wR1] }

/-- Witness for C7: `R2` is untouched and never reported, while the pass
still fixes the creation receipt that follows it. -/
theorem c7_payment_receipts_skipped_witness :
    wR2 ∈ (fixZeroAmountReceipts wDB7).2.receipts ∧
    (∀ f ∈ (fixZeroAmountReceipts wDB7).1.fixedReceipts,
      f.receiptNumber ≠ wR2.receiptNumber) ∧
    wR2 ∈ (fixSpecificBillReceipt "B2" wDB7).2.receipts ∧
    (fixZeroAmountReceipts wDB7).1.fixedReceipts.length = 1 :=
  ⟨(c7_payment_receipts_skipped wDB7 (by decide) (by decide) wR2 (by decide) rfl).1.1,
   (c7_payment_receipts_skipped wDB7 (by decide) (by decide) wR2 (by decide) rfl).1.2,
   ((c7_payment_receipts_skipped wDB7 (by decide) (by decide) wR2 (by decide) rfl).2 "B2").1,
   by decide⟩

/-- C10: `fixZeroAmountReceipts` resolves the owning bill only through the
receipt's `billingId`; a zero-amount receipt whose `billingId` matches no
bill is left unchanged and excluded from the fixed list, whatever bills
share its `billNumber`. -/
theorem c10_billingId_resolution (db : DB)
    (hid : (db.receipts.map Receipt.id).Nodup)
    (hrn : (db.receipts.map Receipt.receiptNumber).Nodup) :
    ∀ r ∈ db.receipts, billFindById db.bills r.billingId = none →
      r ∈ (fixZeroAmountReceipts db).2.receipts ∧
      ∀ f ∈ (fixZeroAmountReceipts db).1.fixedReceipts,
        f.receiptNumber ≠ r.receiptNumber := by
  intro r hr hnone
  have hdec : zeroFixDecision db.bills r = none ∨ 0 < r.amount :=
    Or.inl (zeroFixDecision_none_of_no_bill db.bills r hnone)
  refine ⟨?_, fixZero_excluded db hrn r hr hdec⟩
  rw [fixZero_final, ← fixZero_unchanged db hid r hr hdec]
  exact List.mem_map_of_mem _ hr

/-- Zero-amount creation receipt whose `billingId` (999) matches no bill,
while bill `B2` shares its `billNumber`. -/
def wR10 : Receipt :=
  { id := 80, receiptNumber := "R10", billNumber := "B2", billingId := 999,
    type := "creation", amount := 0, paymentMethod := wPM, newStatus := "paid",
    remarks := "", createdBy := "u", date := 7 }

/-- Snapshot of the C10 scenario. -/
def wDB10 : DB := { bills := [wB2], receipts := [wR10] }

/-- Witness for C10: `R10` stays unchanged and unreported although a paid
bill with its `billNumber` exists. -/
theorem c10_billingId_resolution_witness :
    billFindById wDB10.bills wR10.billingId = none ∧
    (∃ b ∈ wDB10.bills, b.billNumber = wR10.billNumber ∧ 0 < b.payment.paid) ∧
    wR10 ∈ (fixZeroAmountReceipts wDB10).2.receipts ∧
    (fixZeroAmountReceipts wDB10).1.fixedReceipts = [] :=
  ⟨by decide, by decide,
   (c10_billingId_resolution wDB10 (by decide) (by decide) wR10 (by decide) (by decide)).1,
   by decide⟩

/-- C9: a fix operation modifies only the `amount` field of the receipts it
classified for correction: bills are returned unchanged, the receipt list
keeps its length and order (no record is deleted), every returned receipt
differs from its stored value at most in `amount`, and a receipt the pass
did not classify is returned identically. -/
theorem c9_frame (db : DB) (hid : (db.receipts.map Receipt.id).Nodup) :
    (fixZeroAmountReceipts db).2.bills = db.bills ∧
    List.Forall₂ (fun r s => (∃ a : Int, s = { r with amount := a }) ∧
        ((0 < r.amount ∨ zeroFixDecision db.bills r = none) → s = r))
      db.receipts (fixZeroAmountReceipts db).2.receipts ∧
    ∀ bn : String,
      (fixSpecificBillReceipt bn db).2.bills = db.bills ∧
      List.Forall₂ (fun r s => (∃ a : Int, s = { r with amount := a }) ∧
          ((∀ b : Bill, db.bills.find? (fun x => x.billNumber == bn) = some b →
              specFixDecision b r = none ∨ r.billNumber ≠ bn) → s = r))
        db.receipts (fixSpecificBillReceipt bn db).2.receipts := by
  refine ⟨fixZero_bills db, ?_, ?_⟩
  · rw [fixZero_final]
    apply forall₂_map_self
    intro r hr
    refine ⟨foldUpd_shape (zeroUpds db) r, ?_⟩
    intro hcond
    apply fixZero_unchanged db hid r hr
    rcases hcond with hpos | hnone
    · exact Or.inr hpos
    · exact Or.inl hnone
  · intro bn
    refine ⟨fixSpecific_bills bn db, ?_⟩
    cases hfind : db.bills.find? (fun x => x.billNumber == bn) with
    | none =>
      have hsame : (fixSpecificBillReceipt bn db).2.receipts = db.receipts := by
        rw [fixSpecific_notFound bn db hfind]
      rw [hsame]
      apply List.forall₂_same.mpr
      intro r hr
      exact ⟨⟨r.amount, rfl⟩, fun _ => rfl⟩
    | some b =>
      rw [fixSpecific_final bn db b hfind]
      apply forall₂_map_self
      intro r hr
      refine ⟨foldUpd_shape (specUpds db bn b) r, ?_⟩
      intro hcond
      exact fixSpecific_unchanged db bn b hid r hr (hcond b rfl)

/-- Witness for C9 at the `R1`/`B2` snapshot, with the length preservation
made explicit. -/
theorem c9_frame_witness :
    (fixZeroAmountReceipts wDBz).2.bills = wDBz.bills ∧
    List.Forall₂ (fun r s => (∃ a : Int, s = { r with amount := a }) ∧
        ((0 < r.amount ∨ zeroFixDecision wDBz.bills r = none) → s = r))
      wDBz.receipts (fixZeroAmountReceipts wDBz).2.receipts ∧
    (fixZeroAmountReceipts wDBz).2.receipts.length = wDBz.receipts.length :=
  ⟨(c9_frame wDBz (by decide)).1, (c9_frame wDBz (by decide)).2.1, by decide⟩

theorem saveLoopF_error (gen : Nat → String) (fid : Nat → Nat)
    (fails : Nat → Option String) (k : Nat) (m : String)
    (hk : fails k = some m) (hbefore : ∀ j, j < k → fails j = none) :
    ∀ (bs : List Bill) (op k0 : Nat), op ≤ k →
      k < op + (bs.filter (fun b => decide (b.payment.paid > 0))).length →
      saveLoopF gen fid fails op k0 bs = Except.error m := by
  intro bs
  induction bs with
  | nil =>
    intro op k0 hle hlt
    simp only [List.filter_nil, List.length_nil] at hlt
    omega
  | cons b bs ih =>
    intro op k0 hle hlt
    by_cases hp : b.payment.paid > 0
    · rw [List.filter_cons_of_pos (by simpa using hp), List.length_cons] at hlt
      by_cases hop : op = k
      · subst hop
        simp only [saveLoopF, if_pos hp, hk]
      · have hlt2 : op < k := lt_of_le_of_ne hle hop
        have hrec : saveLoopF gen fid fails (op + 1) (k0 + 1) bs = Except.error m :=
          ih (op + 1) (k0 + 1) hlt2 (by omega)
        simp only [saveLoopF, if_pos hp, hbefore op hlt2, hrec]
    · rw [List.filter_cons_of_neg (by simpa using hp)] at hlt
      have hrec : saveLoopF gen fid fails op k0 bs = Except.error m :=
        ih op k0 hle hlt
      simp only [saveLoopF, if_neg hp, hrec]

theorem createMissingReceiptsF_first_fail (gen : Nat → String) (fid : Nat → Nat)
    (fails : Nat → Option String) (db : DB) (k : Nat) (m : String)
    (hk : fails k = some m) (hbefore : ∀ j, j < k → fails j = none)
    (hlt : k < 2 + (createdReceipts gen fid db).length) :
    createMissingReceiptsF gen fid fails db = (createFailure m, db) := by
  by_cases hk0 : k = 0
  · subst hk0
    simp only [createMissingReceiptsF, hk]
  · by_cases hk1 : k = 1
    · subst hk1
      have h0 : fails 0 = none := hbefore 0 (by omega)
      simp only [createMissingReceiptsF, h0, hk]
    · have h0 : fails 0 = none := hbefore 0 (by omega)
      have h1 : fails 1 = none := hbefore 1 (by omega)
      have hlen : (createdReceipts gen fid db).length =
          ((billsWithoutReceipts db.bills db.receipts).filter
            (fun b => decide (b.payment.paid > 0))).length :=
        createLoop_length gen fid (billsWithoutReceipts db.bills db.receipts) 0
      have hloop : saveLoopF gen fid fails 2 0 (billsWithoutReceipts db.bills db.receipts) =
          Except.error m :=
        saveLoopF_error gen fid fails k m hk hbefore
          (billsWithoutReceipts db.bills db.receipts) 2 0 (by omega) (by omega)
      simp only [createMissingReceiptsF, h0, h1, hloop]

theorem fixZeroLoopF_error (bills : List Bill) (fails : Nat → Option String) :
    ∀ (rs : List Receipt) (op : Nat) (m : String),
      fixZeroLoopF bills fails op rs = Except.error m → ∃ k, fails k = some m := by
  intro rs
  induction rs with
  | nil =>
    intro op m h
    simp only [fixZeroLoopF] at h
    exact Except.noConfusion h
  | cons r rs ih =>
    intro op m h
    cases hf : fails op with
    | some m2 =>
      simp only [fixZeroLoopF, hf] at h
      exact ⟨op, by rw [hf, Except.error.inj h]⟩
    | none =>
      cases hb : billFindById bills r.billingId with
      | none =>
        simp only [fixZeroLoopF, hf, hb] at h
        exact ih (op + 1) m h
      | some billing =>
        by_cases hp : r.type = "payment"
        · simp only [fixZeroLoopF, hf, hb, if_pos hp] at h
          exact ih (op + 1) m h
        · by_cases hg : (if r.type = "creation" then billing.payment.paid
              else if r.type = "cancellation" then billing.payment.paid else 0) > 0 ∧
              (if r.type = "creation" then billing.payment.paid
              else if r.type = "cancellation" then billing.payment.paid else 0) ≠ r.amount
          · cases hf2 : fails (op + 1) with
            | some m2 =>
              simp only [fixZeroLoopF, hf, hb, if_neg hp, if_pos hg, hf2] at h
              exact ⟨op + 1, by rw [hf2, Except.error.inj h]⟩
            | none =>
              cases hrec : fixZeroLoopF bills fails (op + 2) rs with
              | ok pair =>
                simp only [fixZeroLoopF, hf, hb, if_neg hp, if_pos hg, hf2, hrec] at h
                exact Except.noConfusion h
              | error m2 =>
                simp only [fixZeroLoopF, hf, hb, if_neg hp, if_pos hg, hf2, hrec] at h
                obtain ⟨k, hk⟩ := ih (op + 2) m2 hrec
                exact ⟨k, by rw [hk, Except.error.inj h]⟩
          · simp only [fixZeroLoopF, hf, hb, if_neg hp, if_neg hg] at h
            exact ih (op + 1) m h

theorem fixZeroAmountReceiptsF_failure (fails : Nat → Option String) (db : DB) :
    (fixZeroAmountReceiptsF fails db).1.success = false →
      (fixZeroAmountReceiptsF fails db).2 = db ∧
      (fixZeroAmountReceiptsF fails db).1.message = "Error fixing zero amount receipts" ∧
      ∃ k m, fails k = some m ∧ (fixZeroAmountReceiptsF fails db).1.error = some m := by
  cases hf : fails 0 with
  | some m =>
    intro _
    refine ⟨?_, ?_, 0, m, hf, ?_⟩ <;> simp only [fixZeroAmountReceiptsF, hf] <;> rfl
  | none =>
    cases hloop : fixZeroLoopF db.bills fails 1 (zeroAmountReceipts db.receipts) with
    | ok pass =>
      intro hsucc
      have htrue : (fixZeroAmountReceiptsF fails db).1.success = true := by
        simp only [fixZeroAmountReceiptsF, hf, hloop]
      rw [htrue] at hsucc
      exact Bool.noConfusion hsucc
    | error m =>
      intro _
      obtain ⟨k, hk⟩ :=
        fixZeroLoopF_error db.bills fails (zeroAmountReceipts db.receipts) 1 m hloop
      refine ⟨?_, ?_, k, m, hk, ?_⟩ <;> simp only [fixZeroAmountReceiptsF, hf, hloop] <;> rfl

theorem fixSpecificLoopF_error (billing : Bill) (fails : Nat → Option String) :
    ∀ (rs : List Receipt) (op : Nat) (m : String),
      fixSpecificLoopF billing fails op rs = Except.error m → ∃ k, fails k = some m := by
  intro rs
  induction rs with
  | nil =>
    intro op m h
    simp only [fixSpecificLoopF] at h
    exact Except.noConfusion h
  | cons r rs ih =>
    intro op m h
    by_cases hg : correctAmountFor billing r > 0 ∧ correctAmountFor billing r ≠ r.amount
    · cases hf : fails op with
      | some m2 =>
        simp only [fixSpecificLoopF, if_pos hg, hf] at h
        exact ⟨op, by rw [hf, Except.error.inj h]⟩
      | none =>
        cases hrec : fixSpecificLoopF billing fails (op + 1) rs with
        | ok pair =>
          simp only [fixSpecificLoopF, if_pos hg, hf, hrec] at h
          exact Except.noConfusion h
        | error m2 =>
          simp only [fixSpecificLoopF, if_pos hg, hf, hrec] at h
          obtain ⟨k, hk⟩ := ih (op + 1) m2 hrec
          exact ⟨k, by rw [hk, Except.error.inj h]⟩
    · simp only [fixSpecificLoopF, if_neg hg] at h
      exact ih op m h

theorem fixSpecificBillReceiptF_failure (bn : String) (fails : Nat → Option String) (db : DB) :
    (fixSpecificBillReceiptF bn fails db).1.success = false →
      (fixSpecificBillReceiptF bn fails db).2 = db ∧
      (((fixSpecificBillReceiptF bn fails db).1.error = none ∧
          db.bills.find? (fun b => b.billNumber == bn) = none) ∨
        ∃ k m, fails k = some m ∧
          (fixSpecificBillReceiptF bn fails db).1.error = some m ∧
          (fixSpecificBillReceiptF bn fails db).1.message =
            "Error fixing receipts for bill " ++ bn) := by
  cases hf : fails 0 with
  | some m =>
    intro _
    refine ⟨?_, Or.inr ⟨0, m, hf, ?_, ?_⟩⟩ <;>
      simp only [fixSpecificBillReceiptF, hf] <;> rfl
  | none =>
    cases hfind : db.bills.find? (fun b => b.billNumber == bn) with
    | none =>
      intro _
      refine ⟨?_, Or.inl ⟨?_, rfl⟩⟩ <;>
        simp only [fixSpecificBillReceiptF, hf, hfind]
    | some billing =>
      cases hf1 : fails 1 with
      | some m =>
        intro _
        refine ⟨?_, Or.inr ⟨1, m, hf1, ?_, ?_⟩⟩ <;>
          simp only [fixSpecificBillReceiptF, hf, hfind, hf1] <;> rfl
      | none =>
        cases hloop : fixSpecificLoopF billing fails 2
            (db.receipts.filter (fun r => r.billNumber == bn)) with
        | ok pass =>
          intro hsucc
          have htrue : (fixSpecificBillReceiptF bn fails db).1.success = true := by
            simp only [fixSpecificBillReceiptF, hf, hfind, hf1, hloop]
          rw [htrue] at hsucc
          exact Bool.noConfusion hsucc
        | error m =>
          intro _
          obtain ⟨k, hk⟩ := fixSpecificLoopF_error billing fails
            (db.receipts.filter (fun r => r.billNumber == bn)) 2 m hloop
          refine ⟨?_, Or.inr ⟨k, m, hk, ?_, ?_⟩⟩ <;>
            simp only [fixSpecificBillReceiptF, hf, hfind, hf1, hloop] <;> rfl

theorem saveLoopF_no_fail (gen : Nat → String) (fid : Nat → Nat) :
    ∀ (bs : List Bill) (op k0 : Nat),
      saveLoopF gen fid (fun _ => none) op k0 bs = Except.ok (createLoop gen fid k0 bs) := by
  intro bs
  induction bs with
  | nil => intro op k0; rfl
  | cons b bs ih =>
    intro op k0
    by_cases hp : b.payment.paid > 0
    · simp only [saveLoopF, createLoop, if_pos hp, ih]
    · simp only [saveLoopF, createLoop, if_neg hp, ih]

/-- With no storage failure the modelled `createMissingReceipts` coincides
with the pure controller. -/
theorem createMissingReceiptsF_no_fail (gen : Nat → String) (fid : Nat → Nat) (db : DB) :
    createMissingReceiptsF gen fid (fun _ => none) db = createMissingReceipts gen fid db := by
  simp only [createMissingReceiptsF, createMissingReceipts, createdReceipts, saveLoopF_no_fail]

theorem fixZeroLoopF_no_fail (bills : List Bill) :
    ∀ (rs : List Receipt) (op : Nat),
      fixZeroLoopF bills (fun _ => none) op rs = Except.ok (fixZeroPass bills rs) := by
  intro rs
  induction rs with
  | nil => intro op; rfl
  | cons r rs ih =>
    intro op
    cases hb : billFindById bills r.billingId with
    | none => simp only [fixZeroLoopF, fixZeroPass, hb, ih]
    | some billing =>
      by_cases hp : r.type = "payment"
      · simp only [fixZeroLoopF, fixZeroPass, hb, if_pos hp, ih]
      · by_cases hg : (if r.type = "creation" then billing.payment.paid
            else if r.type = "cancellation" then billing.payment.paid else 0) > 0 ∧
            (if r.type = "creation" then billing.payment.paid
            else if r.type = "cancellation" then billing.payment.paid else 0) ≠ r.amount
        · simp only [fixZeroLoopF, fixZeroPass, hb, if_neg hp, if_pos hg, ih]
        · simp only [fixZeroLoopF, fixZeroPass, hb, if_neg hp, if_neg hg, ih]

/-- With no storage failure the modelled `fixZeroAmountReceipts` coincides
with the pure controller. -/
theorem fixZeroAmountReceiptsF_no_fail (db : DB) :
    fixZeroAmountReceiptsF (fun _ => none) db = fixZeroAmountReceipts db := by
  simp only [fixZeroAmountReceiptsF, fixZeroAmountReceipts, fixZeroLoopF_no_fail]

theorem fixSpecificLoopF_no_fail (billing : Bill) :
    ∀ (rs : List Receipt) (op : Nat),
      fixSpecificLoopF billing (fun _ => none) op rs =
        Except.ok (fixSpecificPass billing rs) := by
  intro rs
  induction rs with
  | nil => intro op; rfl
  | cons r rs ih =>
    intro op
    by_cases hg : correctAmountFor billing r > 0 ∧ correctAmountFor billing r ≠ r.amount
    · simp only [fixSpecificLoopF, fixSpecificPass, if_pos hg, ih]
    · simp only [fixSpecificLoopF, fixSpecificPass, if_neg hg, ih]

/-- With no storage failure the modelled `fixSpecificBillReceipt` coincides
with the pure controller. -/
theorem fixSpecificBillReceiptF_no_fail (bn : String) (db : DB) :
    fixSpecificBillReceiptF bn (fun _ => none) db = fixSpecificBillReceipt bn db := by
  cases hfind : db.bills.find? (fun b => b.billNumber == bn) with
  | none => simp only [fixSpecificBillReceiptF, fixSpecificBillReceipt, hfind]
  | some billing =>
    simp only [fixSpecificBillReceiptF, fixSpecificBillReceipt, hfind, fixSpecificLoopF_no_fail]

/-- C8: under the transactional failure model, a storage failure mid-pass in
any repair operation aborts the whole transaction — the snapshot is
returned unchanged, no partial writes are retained — and the caller
receives `{ success: false, message, error }` where `error` carries the
failing call's cause message.  For `createMissingReceipts` the first
failing storage call determines the outcome exactly; for the two fix
operations every failing run rolls back and reports a cause (the
`fixSpecificBillReceipt` 404 path is the only failure with `error = none`). -/
theorem c8_transaction_rollback (gen : Nat → String) (fid : Nat → Nat)
    (fails : Nat → Option String) (db : DB) :
    (∀ k m, fails k = some m → (∀ j, j < k → fails j = none) →
      k < 2 + (createdReceipts gen fid db).length →
      createMissingReceiptsF gen fid fails db = (createFailure m, db)) ∧
    ((fixZeroAmountReceiptsF fails db).1.success = false →
      (fixZeroAmountReceiptsF fails db).2 = db ∧
      (fixZeroAmountReceiptsF fails db).1.message = "Error fixing zero amount receipts" ∧
      ∃ k m, fails k = some m ∧ (fixZeroAmountReceiptsF fails db).1.error = some m) ∧
    (∀ m, fails 0 = some m → fixZeroAmountReceiptsF fails db = (fixZeroFailure m, db)) ∧
    ∀ bn : String, (fixSpecificBillReceiptF bn fails db).1.success = false →
      (fixSpecificBillReceiptF bn fails db).2 = db ∧
      (((fixSpecificBillReceiptF bn fails db).1.error = none ∧
          db.bills.find? (fun b => b.billNumber == bn) = none) ∨
        ∃ k m, fails k = some m ∧
          (fixSpecificBillReceiptF bn fails db).1.error = some m ∧
          (fixSpecificBillReceiptF bn fails db).1.message =
            "Error fixing receipts for bill " ++ bn) := by
  refine ⟨?_, fixZeroAmountReceiptsF_failure fails db, ?_, ?_⟩
  · intro k m hk hbefore hlt
    exact createMissingReceiptsF_first_fail gen fid fails db k m hk hbefore hlt
  · intro m hm
    simp only [fixZeroAmountReceiptsF, hm]
  · intro bn
    exact fixSpecificBillReceiptF_failure bn fails db

/-- Failure oracle that makes the very first storage call of an invocation
throw with message "network error". -/
def wFails : Nat → Option String := fun k => if k = 0 then some "network error" else none

/-- Witness for C8: with the first storage call failing, all three repair
operations abort, return the snapshot unchanged and report the cause. -/
theorem c8_transaction_rollback_witness :
    createMissingReceiptsF wGen wFid wFails wDB1 = (createFailure "network error", wDB1) ∧
    fixZeroAmountReceiptsF wFails wDBz = (fixZeroFailure "network error", wDBz) ∧
    (fixSpecificBillReceiptF "B2" wFails wDBz).2 = wDBz ∧
    (fixSpecificBillReceiptF "B2" wFails wDBz).1.success = false :=
  ⟨(c8_transaction_rollback wGen wFid wFails wDB1).1 0 "network error" rfl
      (fun j hj => absurd hj (Nat.not_lt_zero j)) (by decide),
   (c8_transaction_rollback wGen wFid wFails wDBz).2.2.1 "network error" rfl,
   ((c8_transaction_rollback wGen wFid wFails wDBz).2.2.2 "B2" (by decide)).1,
   by decide⟩

end BillingMigration
